import Mathlib

/-!
# STUN client: transaction and retransmission engine

A shallow embedding of `client.go`.  The client is sequential code over two
collaborators it only knows through interfaces (`ClientAgent`, `Connection`)
and a `Clock`.  Those collaborators are an environment `Env` whose answers may
depend on everything that happened before (the trace of external calls); the
client itself is a state transformer on `State` = client fields + trace.

Go features and how they are rendered:

* `error` is an inductive type with a `nil` constructor; `err != nil` is `err ≠ error.nil`.
* `int32` / `int64` are `Int` with explicit wrap-around (`wrapInt32`, `wrapInt64`).
* `time.Time` is an `Int` (nanoseconds), `Time.Add` is addition.
* `map[transactionID]clientTransaction` is a function to `Option`; a nil map is `none`.
* a `Handler` (a Go func value) is an opaque identifier; calling it is recorded in the trace.
* a panic and running out of recursion fuel are explicit outcomes.
* locks, the wait group and the two background goroutines are not modelled: every
  method runs to completion before the next one starts.

The message codec that `attributes_test.go` exercises (header, attributes,
XOR-MAPPED-ADDRESS, ERROR-CODE) follows the specification; see the section
on the message codec.
-/

namespace Stun

/-! ## Data model -/

abbrev Byte := Fin 256

/-- Modelled from the spec: `TransactionIDSize` (declared outside `client.go`) is 12;
a transaction id is an array of 12 bytes. -/
abbrev transactionID := { l : List Byte // l.length = 12 }

/-- The zero value of `[TransactionIDSize]byte`. -/
def zeroID : transactionID := ⟨List.replicate 12 0, rfl⟩

/-- Go `time.Time`, in nanoseconds; the zero time is `0`. -/
abbrev Time := Int

/-- An opaque user callback (`Handler`, a Go func value). -/
abbrev Handler := Nat

/-- Go `error` values seen by the client.  `nil` is the nil interface value;
`other n` stands for any error produced by a collaborator. -/
inductive error where
  | nil
  | ErrNoConnection
  | ErrClientClosed
  | ErrClientNotInitialized
  | ErrAgentClosed
  | ErrTransactionExists
  | ErrTransactionNotExists
  | ErrTransactionStopped
  | ErrTransactionTimeOut
  | StopErr (Err : error) (Cause : error)
  | CloseErr (AgentErr : error) (ConnectionErr : error)
  | other (code : Nat)
  | ErrAttributeNotFound
  | ErrAttributeSizeInvalid
  | ErrBadIPLength
  | ErrInvalidMagicCookie
  | ErrInvalidMessageType
  | ErrUnexpectedEOF
  deriving DecidableEq, Repr

/-- Modelled from the spec: `Event` is declared outside `client.go`; the client
reads `TransactionID` and `Error` only. -/
structure Event where
  TransactionID : transactionID
  Error : error
  deriving DecidableEq, Repr

/-- Modelled from the spec: `MessageType` is declared in the codec, outside `client.go`;
a message type is a method and a class (spec, data model). -/
structure MessageType where
  Method : Nat
  Class : Nat
  deriving DecidableEq, Repr

/-- Modelled from the spec: `RawAttribute` is declared in the codec, outside `client.go`;
an attribute is `{type:u16, length:u16, value:bytes}` (spec, data model).
The field `Typ` is the attribute type. -/
structure RawAttribute where
  Typ : Nat
  Length : Nat
  Value : List Byte
  deriving DecidableEq, Repr

/-- Modelled from the spec: `Message` is declared outside `client.go`; the client
reads `TransactionID` and `Raw` only.  The codec also uses the message type
(`Typ`), the length of the attribute section and the ordered attribute index. -/
structure Message where
  TransactionID : transactionID
  Raw : List Byte
  Typ : MessageType := { Method := 0, Class := 0 }
  Length : Nat := 0
  Attributes : List RawAttribute := []
  deriving DecidableEq, Repr

/-- The struct `clientTransaction`: a transaction in progress on the client side. -/
structure clientTransaction where
  id : transactionID
  start : Time
  rto : Int
  attempt : Int
  h : Option Handler
  raw : List Byte
  deriving DecidableEq, Repr

/-- The zero value of `clientTransaction`, what a failed map lookup yields. -/
def zeroTransaction : clientTransaction :=
  { id := zeroID, start := 0, rto := 0, attempt := 0, h := none, raw := [] }

/-- External calls made by the client, in the order they happen, each with the
value the collaborator answered. -/
inductive Action where
  | clockNow (t : Time)
  | connWrite (b : List Byte) (err : error)
  | connClose (err : error)
  | agentStart (id : transactionID) (deadline : Time) (err : error)
  | agentStop (id : transactionID) (err : error)
  | agentClose (err : error)
  | handle (h : Handler) (e : Event)
  deriving DecidableEq, Repr

abbrev Trace := List Action

/-- The collaborators.  Every answer may depend on the whole history.
`agentStop` and `agentClose` also give the events the agent hands to the
callback it was registered with (`handleAgentCallback`) before returning. -/
structure Env where
  now : Trace → Time
  write : Trace → List Byte → error
  connClose : Trace → error
  agentStart : Trace → transactionID → Time → error
  agentStop : Trace → transactionID → List Event × error
  agentClose : Trace → List Event × error

abbrev TMap := transactionID → Option clientTransaction

/-- Go `delete(m, id)`. -/
def TMap.erase (m : TMap) (id : transactionID) : TMap :=
  fun k => if k = id then none else m k

/-- Go `m[id] = t`. -/
def TMap.insert (m : TMap) (id : transactionID) (t : clientTransaction) : TMap :=
  fun k => if k = id then some t else m k

/-- The fields of `Client` that the methods below read or write.  `a`, `c` and
`close` record whether the agent, the connection and the close channel are
non-nil; `t = none` is a nil map. -/
structure Client where
  a : Bool
  c : Bool
  close : Bool
  rto : Int
  maxAttempts : Int
  closed : Bool
  t : Option TMap

structure State where
  client : Client
  trace : Trace

/-- How a call ends: it returns a value in a new state, it panics, or the
model ran out of fuel for re-entrant callbacks. -/
inductive Outcome (α : Type) where
  | ret (a : α) (s : State)
  | panic (s : State)
  | outOfFuel

/-! ## Machine integers -/

/-- Wrap-around to `int32` (two-complement). -/
def wrapInt32 (x : Int) : Int := (x + 2 ^ 31) % 2 ^ 32 - 2 ^ 31

/-- Wrap-around to `int64` (two-complement). -/
def wrapInt64 (x : Int) : Int := (x + 2 ^ 63) % 2 ^ 64 - 2 ^ 63

def inInt32 (x : Int) : Prop := -(2 ^ 31) ≤ x ∧ x < 2 ^ 31

def inInt64 (x : Int) : Prop := -(2 ^ 63) ≤ x ∧ x < 2 ^ 63

instance (x : Int) : Decidable (inInt32 x) := by unfold inInt32; infer_instance

instance (x : Int) : Decidable (inInt64 x) := by unfold inInt64; infer_instance

/-! ## State helpers -/

def State.log (s : State) (a : Action) : State :=
  { s with trace := s.trace ++ [a] }

def State.setMap (s : State) (m : TMap) : State :=
  { s with client := { s.client with t := some m } }

/-- Calling the handler of a transaction, `t.h(e)`; a nil func value panics. -/
def callHandler (h : Option Handler) (e : Event) (s : State) : Outcome Unit :=
  match h with
  | none => Outcome.panic s
  | some f => Outcome.ret () (s.log (Action.handle f e))

/-- Hands events to a callback one after the other. -/
def deliver (cb : Event → State → Outcome Unit) : List Event → State → Outcome Unit
  | [], s => Outcome.ret () s
  | e :: es, s =>
    match cb e s with
    | Outcome.ret _ s1 => deliver cb es s1
    | Outcome.panic s1 => Outcome.panic s1
    | Outcome.outOfFuel => Outcome.outOfFuel

/-! ## The client (`client.go`) -/

/-- The method `clientTransaction.nextTimeout`: `now.Add(time.Duration(t.attempt) * t.rto)`. -/
def clientTransaction.nextTimeout (t : clientTransaction) (now : Time) : Time :=
  now + wrapInt64 (t.attempt * t.rto)

/-- The method `Client.nextTimeout` (not called anywhere): it ignores its `rto`
argument and adds the current RTO of the client to `t`. -/
def Client.nextTimeout (c : Client) (t : Time) (_rto : Int) : Time :=
  t + c.rto

/-- The method `Client.start`: registers the transaction in the client map. -/
def start (t : clientTransaction) (s : State) : Outcome error :=
  if s.client.closed then Outcome.ret error.ErrAgentClosed s
  else
    match s.client.t with
    | none => Outcome.panic s
    | some m =>
      match m t.id with
      | some _ => Outcome.ret error.ErrTransactionExists s
      | none => Outcome.ret error.nil (s.setMap (m.insert t.id t))

/-- The method `Client.SetRTO`. -/
def SetRTO (rto : Int) (s : State) : State :=
  { s with client := { s.client with rto := rto } }

/-- The method `Client.checkInit` (for a non-nil receiver). -/
def checkInit (c : Client) : error :=
  if c.c = false ∨ c.a = false ∨ c.close = false then error.ErrClientNotInitialized
  else error.nil

/-- The method `Client.delete`. -/
def delete (id : transactionID) (s : State) : State :=
  match s.client.t with
  | none => s
  | some m => s.setMap (m.erase id)

/-- The method `Client.handleAgentCallback`.  `fuel` bounds the nesting of callbacks that
`Agent.Stop` makes from inside this function. -/
def handleAgentCallback (env : Env) : Nat → Event → State → Outcome Unit
  | 0, _, _ => Outcome.outOfFuel
  | fuel + 1, e, s =>
    match s.client.t with
    | none => Outcome.ret () s
    | some m =>
      let found := m e.TransactionID
      let t := found.getD zeroTransaction
      let s1 := s.setMap (m.erase t.id)
      match found with
      | none => Outcome.ret () s1
      | some _ =>
        if s1.client.maxAttempts < t.attempt ∨ e.Error = error.nil then
          callHandler t.h e s1
        else
          let t := { t with attempt := wrapInt32 (t.attempt + 1) }
          match start t s1 with
          | Outcome.panic s2 => Outcome.panic s2
          | Outcome.outOfFuel => Outcome.outOfFuel
          | Outcome.ret err s2 =>
            if err ≠ error.nil then
              callHandler t.h { e with Error := err } s2
            else
              let now := env.now s2.trace
              let s3 := s2.log (Action.clockNow now)
              let d := t.nextTimeout now
              let aerr := env.agentStart s3.trace t.id d
              let s4 := s3.log (Action.agentStart t.id d aerr)
              if aerr ≠ error.nil then
                callHandler t.h { e with Error := aerr } (delete t.id s4)
              else
                let werr := env.write s4.trace t.raw
                let s5 := s4.log (Action.connWrite t.raw werr)
                if werr ≠ error.nil then
                  let s6 := delete t.id s5
                  let stop := env.agentStop s6.trace t.id
                  let s7 := s6.log (Action.agentStop t.id stop.2)
                  match deliver (handleAgentCallback env fuel) stop.1 s7 with
                  | Outcome.panic s8 => Outcome.panic s8
                  | Outcome.outOfFuel => Outcome.outOfFuel
                  | Outcome.ret _ s8 =>
                    if stop.2 ≠ error.nil then
                      callHandler t.h { e with Error := error.StopErr stop.2 werr } s8
                    else
                      callHandler t.h { e with Error := werr } s8
                else
                  Outcome.ret () s5

/-- Modelled from the spec: `Message.WriteTo` is declared outside `client.go`;
it writes `m.Raw` to the sink in one `Write` and returns the error of that call. -/
def Message.WriteTo (env : Env) (m : Message) (s : State) : error × State :=
  let werr := env.write s.trace m.Raw
  (werr, s.log (Action.connWrite m.Raw werr))

/-- The method `Client.Start`.  `h = none` is a nil handler. -/
def Start (env : Env) (fuel : Nat) (m : Message) (h : Option Handler) (s : State) :
    Outcome error :=
  if checkInit s.client ≠ error.nil then Outcome.ret (checkInit s.client) s
  else if s.client.closed then Outcome.ret error.ErrClientClosed s
  else
    let writeAndFinish (s : State) : Outcome error :=
      let w := m.WriteTo env s
      if w.1 ≠ error.nil ∧ h ≠ none then
        let s2 := delete m.TransactionID w.2
        let stop := env.agentStop s2.trace m.TransactionID
        let s3 := s2.log (Action.agentStop m.TransactionID stop.2)
        match deliver (handleAgentCallback env fuel) stop.1 s3 with
        | Outcome.panic s4 => Outcome.panic s4
        | Outcome.outOfFuel => Outcome.outOfFuel
        | Outcome.ret _ s4 =>
          if stop.2 ≠ error.nil then Outcome.ret (error.StopErr stop.2 w.1) s4
          else Outcome.ret w.1 s4
      else Outcome.ret w.1 w.2
    match h with
    | none => writeAndFinish s
    | some f =>
      let now := env.now s.trace
      let s1 := s.log (Action.clockNow now)
      let t : clientTransaction :=
        { id := m.TransactionID, start := now, h := some f,
          rto := s1.client.rto, attempt := 0,
          raw := m.Raw.take 1500 }
      match start t s1 with
      | Outcome.panic s2 => Outcome.panic s2
      | Outcome.outOfFuel => Outcome.outOfFuel
      | Outcome.ret err s2 =>
        if err ≠ error.nil then Outcome.ret err s2
        else
          let d := t.nextTimeout t.start
          let aerr := env.agentStart s2.trace t.id d
          let s3 := s2.log (Action.agentStart t.id d aerr)
          if aerr ≠ error.nil then Outcome.ret aerr s3
          else writeAndFinish s3

/-- The method `Client.Close`.  Closing the `close` channel and waiting for the background
goroutines have no effect on the fields modelled here. -/
def Close (env : Env) (fuel : Nat) (s : State) : Outcome error :=
  if checkInit s.client ≠ error.nil then Outcome.ret (checkInit s.client) s
  else if s.client.closed then Outcome.ret error.ErrClientClosed s
  else
    let s1 : State := { s with client := { s.client with closed := true } }
    let ac := env.agentClose s1.trace
    let s2 := s1.log (Action.agentClose ac.2)
    match deliver (handleAgentCallback env fuel) ac.1 s2 with
    | Outcome.panic s3 => Outcome.panic s3
    | Outcome.outOfFuel => Outcome.outOfFuel
    | Outcome.ret _ s3 =>
      let connErr := env.connClose s3.trace
      let s4 := s3.log (Action.connClose connErr)
      if ac.2 = error.nil ∧ connErr = error.nil then Outcome.ret error.nil s4
      else Outcome.ret (error.CloseErr ac.2 connErr) s4

/-- The method `Client.Indicate`. -/
def Indicate (env : Env) (fuel : Nat) (m : Message) (s : State) : Outcome error :=
  Start env fuel m none s

/-- What `Client.Do` does up to the point where it blocks. -/
inductive DoResult where
  | returned (err : error)
  | waiting (f : Handler)
  deriving DecidableEq, Repr

/-- The method `Client.Do`.  With a callback, `Do` registers a pooled wrapper that calls `f`
and then signals; after a successful `Start` it blocks in `h.wait()` until a
later event reaches the wrapper, which is reported as `DoResult.waiting`. -/
def Do (env : Env) (fuel : Nat) (m : Message) (f : Option Handler) (s : State) :
    Outcome DoResult :=
  if checkInit s.client ≠ error.nil then
    Outcome.ret (DoResult.returned (checkInit s.client)) s
  else
    match f with
    | none =>
      match Indicate env fuel m s with
      | Outcome.ret err s1 => Outcome.ret (DoResult.returned err) s1
      | Outcome.panic s1 => Outcome.panic s1
      | Outcome.outOfFuel => Outcome.outOfFuel
    | some g =>
      match Start env fuel m (some g) s with
      | Outcome.ret err s1 =>
        if err ≠ error.nil then Outcome.ret (DoResult.returned err) s1
        else Outcome.ret (DoResult.waiting g) s1
      | Outcome.panic s1 => Outcome.panic s1
      | Outcome.outOfFuel => Outcome.outOfFuel

/-! ## Observations on traces -/

/-- The byte strings written to the connection, oldest first. -/
def writesOf : Trace → List (List Byte)
  | [] => []
  | Action.connWrite b _ :: tr => b :: writesOf tr
  | _ :: tr => writesOf tr

/-- The handler invocations, oldest first. -/
def handlerCalls : Trace → List (Handler × Event)
  | [] => []
  | Action.handle h e :: tr => (h, e) :: handlerCalls tr
  | _ :: tr => handlerCalls tr

/-- The `Agent.Start` calls (id and deadline), oldest first. -/
def agentStarts : Trace → List (transactionID × Time)
  | [] => []
  | Action.agentStart id d _ :: tr => (id, d) :: agentStarts tr
  | _ :: tr => agentStarts tr

/-- The `Agent.Stop` calls, oldest first. -/
def agentStops : Trace → List transactionID
  | [] => []
  | Action.agentStop id _ :: tr => id :: agentStops tr
  | _ :: tr => agentStops tr

/-- The number of `Close` calls made on the agent and on the connection. -/
def closeCalls : Trace → Nat × Nat
  | [] => (0, 0)
  | Action.agentClose _ :: tr => ((closeCalls tr).1 + 1, (closeCalls tr).2)
  | Action.connClose _ :: tr => ((closeCalls tr).1, (closeCalls tr).2 + 1)
  | _ :: tr => closeCalls tr

/-- Whether `id` is a key of the client map. -/
def pending (id : transactionID) (s : State) : Bool :=
  match s.client.t with
  | none => false
  | some m => (m id).isSome

/-- The raw bytes the client holds for `id` after a call, if any. -/
def storedRaw (id : transactionID) : Outcome error → Option (List Byte)
  | Outcome.ret _ s =>
    match s.client.t with
    | none => none
    | some m => (m id).map (fun t => t.raw)
  | _ => none

/-- The attempt count the client holds for `id`, if any. -/
def storedAttempt (id : transactionID) (s : State) : Option Int :=
  match s.client.t with
  | none => none
  | some m => (m id).map (fun t => t.attempt)

/-- The client fields other than the transaction map agree in `s` and `s1`. -/
def sameConfig (s s1 : State) : Prop :=
  s1.client.a = s.client.a ∧ s1.client.c = s.client.c ∧ s1.client.close = s.client.close ∧
  s1.client.closed = s.client.closed ∧ s1.client.rto = s.client.rto ∧
  s1.client.maxAttempts = s.client.maxAttempts

/-- Applies a state change to the state an outcome carries. -/
def Outcome.mapState {α : Type} (g : State → State) : Outcome α → Outcome α
  | Outcome.ret a s => Outcome.ret a (g s)
  | Outcome.panic s => Outcome.panic (g s)
  | Outcome.outOfFuel => Outcome.outOfFuel

/-! ## Events and scenarios -/

/-- The event `Agent.Collect` produces for an expired transaction. -/
def timeoutEvent (id : transactionID) : Event :=
  { TransactionID := id, Error := error.ErrTransactionTimeOut }

/-- The agent keeps reporting a timeout for `id` for as long as the client has
the transaction; `rounds` bounds the number of reports. -/
def timeoutsUntilFinished (env : Env) (fuel : Nat) :
    Nat → transactionID → State → Outcome Unit
  | 0, id, s => if pending id s then Outcome.outOfFuel else Outcome.ret () s
  | rounds + 1, id, s =>
    if pending id s then
      match handleAgentCallback env fuel (timeoutEvent id) s with
      | Outcome.ret _ s1 => timeoutsUntilFinished env fuel rounds id s1
      | Outcome.panic s1 => Outcome.panic s1
      | Outcome.outOfFuel => Outcome.outOfFuel
    else Outcome.ret () s

/-- A call of `Start` with a handler against a peer that never answers. -/
def silentPeerRun (env : Env) (fuel rounds : Nat) (m : Message) (h : Handler)
    (s : State) : Outcome error :=
  match Start env fuel m (some h) s with
  | Outcome.ret err s1 =>
    if err ≠ error.nil then Outcome.ret err s1
    else
      match timeoutsUntilFinished env fuel rounds m.TransactionID s1 with
      | Outcome.ret _ s2 => Outcome.ret error.nil s2
      | Outcome.panic s2 => Outcome.panic s2
      | Outcome.outOfFuel => Outcome.outOfFuel
  | Outcome.panic s1 => Outcome.panic s1
  | Outcome.outOfFuel => Outcome.outOfFuel

/-! ## Concrete inputs -/

/-- Collaborators that never fail; the clock starts at 1000 and advances with
the length of the history. -/
def quietEnv : Env :=
  { now := fun tr => 1000 + tr.length
    write := fun _ _ => error.nil
    connClose := fun _ => error.nil
    agentStart := fun _ _ _ => error.nil
    agentStop := fun _ _ => ([], error.nil)
    agentClose := fun _ => ([], error.nil) }

/-- A client as `NewClient` builds it, with the given retry budget and RTO. -/
def newClient (maxAttempts rto : Int) : Client :=
  { a := true, c := true, close := true, rto := rto, maxAttempts := maxAttempts,
    closed := false, t := some (fun _ => none) }

def newState (maxAttempts rto : Int) : State :=
  { client := newClient maxAttempts rto, trace := [] }

def idA : transactionID := ⟨[1, 2, 3, 4, 5, 6, 7, 8, 9, 10, 11, 12], rfl⟩

def msgA : Message := { TransactionID := idA, Raw := [0, 1, 0, 0] }

/-- A registered transaction for `msgA` with handler 7 and the given attempt count. -/
def txA (attempt : Int) : clientTransaction :=
  { id := idA, start := 1000, rto := 500, attempt := attempt, h := some 7, raw := msgA.Raw }

/-- A client whose map holds exactly `txA attempt`. -/
def pendingState (maxAttempts attempt : Int) (closed : Bool) : State :=
  { client :=
      { a := true, c := true, close := true, rto := 500, maxAttempts := maxAttempts,
        closed := closed, t := some (TMap.insert (fun _ => none) idA (txA attempt)) }
    trace := [] }

/-- The event `Agent.Close` hands to the callback of a transaction it still holds. -/
def closedEvent (id : transactionID) : Event :=
  { TransactionID := id, Error := error.ErrAgentClosed }

/-- The state `newState` after a `Close` that met no error. -/
def closedState (maxAttempts rto : Int) : State :=
  { client := { newClient maxAttempts rto with closed := true }
    trace := [Action.agentClose error.nil, Action.connClose error.nil] }

/-- The event `Agent.Stop` hands to the callback of the transaction it stops. -/
def stoppedEvent (id : transactionID) : Event :=
  { TransactionID := id, Error := error.ErrTransactionStopped }

/-- A connection whose every write fails with `error.other 1`, and an agent whose
`Stop` succeeds after calling back with `ErrTransactionStopped`. -/
def brokenPipeEnv : Env :=
  { now := fun tr => 1000 + tr.length
    write := fun _ _ => error.other 1
    connClose := fun _ => error.nil
    agentStart := fun _ _ _ => error.nil
    agentStop := fun _ id => ([stoppedEvent id], error.nil)
    agentClose := fun _ => ([], error.nil) }

/-- A message whose serialized form has 1501 bytes. -/
def longMsg : Message := { TransactionID := idA, Raw := List.replicate 1501 0 }

/-- Every transaction in the client map has a handler, as `Start` guarantees. -/
def handlersSet (s : State) : Prop :=
  ∀ m, s.client.t = some m → ∀ k t, m k = some t → t.h ≠ none

/-- An agent whose `Close` fails with `error.other 2` after reporting `ErrAgentClosed`
for `idA`, and a connection whose `Close` succeeds. -/
def failingCloseEnv : Env :=
  { now := fun tr => 1000 + tr.length
    write := fun _ _ => error.nil
    connClose := fun _ => error.nil
    agentStart := fun _ _ _ => error.nil
    agentStop := fun _ _ => ([], error.nil)
    agentClose := fun _ => ([closedEvent idA], error.other 2) }

/-- An agent whose `Start` always fails with `ErrAgentClosed`. -/
def deafAgentEnv : Env :=
  { now := fun tr => 1000 + tr.length
    write := fun _ _ => error.nil
    connClose := fun _ => error.nil
    agentStart := fun _ _ _ => error.ErrAgentClosed
    agentStop := fun _ _ => ([], error.ErrAgentClosed)
    agentClose := fun _ => ([], error.ErrAgentClosed) }

/-- A client whose map holds one transaction, registered under the all-zero id
with handler 9. -/
def zeroPendingState : State :=
  { client :=
      { a := true, c := true, close := true, rto := 500, maxAttempts := 3, closed := false,
        t := some (TMap.insert (fun _ => none) zeroID
          { id := zeroID, start := 1000, rto := 500, attempt := 0, h := some 9,
            raw := [0, 1, 0, 0] }) }
    trace := [] }

/-- The time between each clock reading and the deadline of the `Agent.Start`
call that follows it, oldest first. -/
def intervalsOf : Trace → List Int
  | [] => []
  | Action.clockNow t :: Action.agentStart _ d _ :: tr => (d - t) :: intervalsOf tr
  | _ :: tr => intervalsOf tr

/-! ## The message codec

The codec (message and attribute encoding) is declared outside `client.go`;
`attributes_test.go` exercises it.  The definitions of this section follow the
specification. -/

/-- The byte with value `n mod 256`. -/
def byteOf (n : Nat) : Byte := ⟨n % 256, Nat.mod_lt n (by decide)⟩

/-- Big-endian encoding of a 16-bit value. -/
def be16 (n : Nat) : List Byte := [byteOf (n / 256), byteOf n]

/-- Big-endian encoding of a 32-bit value. -/
def be32 (n : Nat) : List Byte :=
  [byteOf (n / 16777216), byteOf (n / 65536), byteOf (n / 256), byteOf n]

/-- Big-endian decoding of two bytes. -/
def readBE16 (a b : Byte) : Nat := a.val * 256 + b.val

/-- Big-endian decoding of four bytes. -/
def readBE32 (a b c d : Byte) : Nat := ((a.val * 256 + b.val) * 256 + c.val) * 256 + d.val

/-- Modelled from the spec: the magic cookie `0x2112A442` of header bytes 4..8. -/
def magicCookie : Nat := 0x2112A442

/-- Modelled from the spec: the header has 20 bytes. -/
def messageHeaderSize : Nat := 20

/-- Modelled from the spec: attribute type `XOR-MAPPED-ADDRESS` (0x0020). -/
def AttrXORMappedAddress : Nat := 0x0020

/-- Modelled from the spec: attribute type `ERROR-CODE` (0x0009). -/
def AttrErrorCode : Nat := 0x0009

/-- Modelled from the spec: family byte 0x01 for IPv4. -/
def FamilyIPv4 : Nat := 0x01

/-- Modelled from the spec: family byte 0x02 for IPv6. -/
def FamilyIPv6 : Nat := 0x02

/-- Modelled from the spec: the number of padding bytes that bring a value of
`n` bytes to a 4-byte boundary. -/
def padLen (n : Nat) : Nat := (4 - n % 4) % 4

/-- Bitwise XOR of two bytes. -/
def xorByte (a b : Byte) : Byte :=
  ⟨a.val ^^^ b.val, Nat.xor_lt_two_pow (n := 8) a.isLt b.isLt⟩

/-- Bytewise XOR of `a` with a mask at least as long. -/
def xorBytes (a mask : List Byte) : List Byte := List.zipWith xorByte a mask

/-- Modelled from the spec: the 14-bit encoding of (method, class), the class
bits interleaved at bits 4 and 8 as in RFC 5389 section 6. -/
def MessageType.Value (t : MessageType) : Nat :=
  t.Method % 16 + (t.Class % 2) * 16 + (t.Method / 16 % 8) * 32 + (t.Class / 2 % 2) * 256
    + (t.Method / 128 % 32) * 512

/-- Modelled from the spec: the (method, class) a 14-bit type value stands for. -/
def MessageType.ReadValue (v : Nat) : MessageType :=
  { Method := v % 16 + (v / 32 % 8) * 16 + (v / 512 % 32) * 128
    Class := v / 16 % 2 + (v / 256 % 2) * 2 }

/-- Modelled from the spec: `New()`, the empty message; `Raw` is the 20-byte
header region (the spare capacity of the buffer is not modelled). -/
def New : Message :=
  { TransactionID := zeroID, Raw := List.replicate 20 0 }

/-- Modelled from the spec: `AddRaw(type, value)` appends the TLV
`type(2)|length(2)|value|pad-to-4` to `Raw` and the attribute to the index; the
padding counts in the message length and not in the attribute length. -/
def Message.AddRaw (m : Message) (t : Nat) (v : List Byte) : Message :=
  { m with
    Raw := m.Raw ++ (be16 t ++ be16 v.length ++ v ++ List.replicate (padLen v.length) 0)
    Length := m.Length + 4 + v.length + padLen v.length
    Attributes := m.Attributes ++ [{ Typ := t % 65536, Length := v.length % 65536, Value := v }] }

/-- Modelled from the spec: `WriteHeader` writes the 20-byte header (type,
length, magic cookie, transaction id) in front of the attribute section, the
length computed from the current attribute section. -/
def Message.WriteHeader (m : Message) : Message :=
  { m with
    Raw := be16 m.Typ.Value ++ be16 (m.Raw.drop messageHeaderSize).length ++ be32 magicCookie
      ++ m.TransactionID.val ++ m.Raw.drop messageHeaderSize
    Length := (m.Raw.drop messageHeaderSize).length }

/-- Modelled from the spec: the attribute walk of `ReadFrom`; each attribute is
its 4-byte header, its value and the padding.  A truncated attribute header or
value is rejected.  `fuel` is the number of bytes left. -/
def parseAttributes : Nat → List Byte → Option (List RawAttribute)
  | _, [] => some []
  | 0, _ :: _ => none
  | fuel + 1, a0 :: a1 :: l0 :: l1 :: rest =>
    if rest.length < readBE16 l0 l1 then none
    else
      match parseAttributes fuel (rest.drop (readBE16 l0 l1 + padLen (readBE16 l0 l1))) with
      | none => none
      | some attrs =>
        some ({ Typ := readBE16 a0 a1, Length := readBE16 l0 l1,
                Value := rest.take (readBE16 l0 l1) } :: attrs)
  | _ + 1, _ :: _ => none

/-- The transaction id made of 12 bytes read from the wire. -/
def toTransactionID (l : List Byte) : transactionID :=
  if h : l.length = 12 then ⟨l, h⟩ else zeroID

/-- Modelled from the spec: `ReadFrom(source)` reads exactly 20 header bytes,
validates the magic cookie, validates that the two high bits of the type are
zero, reads `length` more bytes and walks the attributes.  On an error the
message is left as it was. -/
def Message.ReadFrom (m : Message) (src : List Byte) : error × Message :=
  match src with
  | t0 :: t1 :: l0 :: l1 :: c0 :: c1 :: c2 :: c3 :: rest =>
    if rest.length < 12 then (error.ErrUnexpectedEOF, m)
    else if readBE32 c0 c1 c2 c3 ≠ magicCookie then (error.ErrInvalidMagicCookie, m)
    else if 16384 ≤ readBE16 t0 t1 then (error.ErrInvalidMessageType, m)
    else if (rest.drop 12).length < readBE16 l0 l1 then (error.ErrUnexpectedEOF, m)
    else
      match parseAttributes (readBE16 l0 l1) ((rest.drop 12).take (readBE16 l0 l1)) with
      | none => (error.ErrUnexpectedEOF, m)
      | some attrs =>
        (error.nil,
          { TransactionID := toTransactionID (rest.take 12)
            Raw := src.take (messageHeaderSize + readBE16 l0 l1)
            Typ := MessageType.ReadValue (readBE16 t0 t1)
            Length := readBE16 l0 l1
            Attributes := attrs })
  | _ => (error.ErrUnexpectedEOF, m)

/-- Modelled from the spec: the value of the first attribute of type `t`, if any. -/
def Message.getAttrValue (m : Message) (t : Nat) : Option (List Byte) :=
  (m.Attributes.find? (fun a => a.Typ = t)).map (fun a => a.Value)

/-- Modelled from the spec: `AddXORMappedAddress(ip, port)`.  The value is one
reserved byte, the family byte, the port XORed with the high 16 bits of the
magic cookie, and the address XORed with the magic cookie (IPv4) or with the
magic cookie followed by the transaction id (IPv6). -/
def Message.AddXORMappedAddress (m : Message) (ip : List Byte) (port : Nat) : Message :=
  if ip.length = 4 then
    m.AddRaw AttrXORMappedAddress
      ([0, byteOf FamilyIPv4] ++ be16 (port ^^^ (magicCookie / 65536))
        ++ xorBytes ip (be32 magicCookie))
  else
    m.AddRaw AttrXORMappedAddress
      ([0, byteOf FamilyIPv6] ++ be16 (port ^^^ (magicCookie / 65536))
        ++ xorBytes ip (be32 magicCookie ++ m.TransactionID.val))

/-- Modelled from the spec: `GetXORMappedAddress()` returns `(ip, port, err)`:
`ErrAttributeNotFound` when the attribute is absent, `ErrAttributeSizeInvalid`
when the value is too short for family and port, `ErrBadIPLength` when the
address has not the length of its family. -/
def Message.GetXORMappedAddress (m : Message) : List Byte × Nat × error :=
  match m.getAttrValue AttrXORMappedAddress with
  | none => ([], 0, error.ErrAttributeNotFound)
  | some (_ :: fam :: p1 :: p0 :: addr) =>
    if fam.val = FamilyIPv4 then
      if addr.length = 4 then
        (xorBytes addr (be32 magicCookie), readBE16 p1 p0 ^^^ (magicCookie / 65536), error.nil)
      else ([], 0, error.ErrBadIPLength)
    else if fam.val = FamilyIPv6 then
      if addr.length = 16 then
        (xorBytes addr (be32 magicCookie ++ m.TransactionID.val),
          readBE16 p1 p0 ^^^ (magicCookie / 65536), error.nil)
      else ([], 0, error.ErrBadIPLength)
    else ([], 0, error.ErrBadIPLength)
  | some _ => ([], 0, error.ErrAttributeSizeInvalid)

/-- Modelled from the spec: `AddErrorCode(code, reason)`.  The value is 21
reserved bits, the class (3 bits, `code / 100`), the number (8 bits,
`code mod 100`) and the reason phrase. -/
def Message.AddErrorCode (m : Message) (code : Nat) (reason : List Byte) : Message :=
  m.AddRaw AttrErrorCode ([0, 0, byteOf (code / 100 % 8), byteOf (code % 100)] ++ reason)

/-- Modelled from the spec: `GetErrorCode()` returns `(code, reason, err)` with
`code = class * 100 + number`: `ErrAttributeNotFound` when the attribute is
absent, `ErrAttributeSizeInvalid` when the value has fewer than 4 bytes. -/
def Message.GetErrorCode (m : Message) : Nat × List Byte × error :=
  match m.getAttrValue AttrErrorCode with
  | none => (0, [], error.ErrAttributeNotFound)
  | some (_ :: _ :: cl :: num :: reason) => (cl.val % 8 * 100 + num.val, reason, error.nil)
  | some _ => (0, [], error.ErrAttributeSizeInvalid)

/-- The transaction id of the test vectors, base64 `jxhBARZwX+rsC6er`. -/
def idTest : transactionID := ⟨[143, 24, 65, 1, 22, 112, 95, 234, 236, 11, 167, 171], rfl⟩

/-- The address 213.141.156.236. -/
def ipV4Test : List Byte := [213, 141, 156, 236]

/-- The address fe80::dc2b:44ff:fe20:6009. -/
def ipV6Test : List Byte := [254, 128, 0, 0, 0, 0, 0, 0, 220, 43, 68, 255, 254, 32, 96, 9]

/-- The bytes of the reason phrase "Not found". -/
def notFound : List Byte := [78, 111, 116, 32, 102, 111, 117, 110, 100]

/-- The handler invocations made for events of transaction `id`, oldest first. -/
def handlerCallsFor (id : transactionID) (tr : Trace) : List (Handler × Event) :=
  (handlerCalls tr).filter (fun c => decide (c.2.TransactionID = id))

/-- The transaction the client map holds for `id`, if any. -/
def stored (id : transactionID) (s : State) : Option clientTransaction :=
  match s.client.t with
  | none => none
  | some m => m id

/-- Every transaction in the client map is stored under its own id, as
`Client.start` does. -/
def keyedById (s : State) : Prop :=
  ∀ m, s.client.t = some m → ∀ k t, m k = some t → t.id = k

/-- An agent whose `Close` reports `ErrAgentClosed` for an unknown id, for `idA`
and for `idA` once more, and then fails with `error.other 2`. -/
def talkativeCloseEnv : Env :=
  { now := fun tr => 1000 + tr.length
    write := fun _ _ => error.nil
    connClose := fun _ => error.nil
    agentStart := fun _ _ _ => error.nil
    agentStop := fun _ _ => ([], error.nil)
    agentClose := fun _ =>
      ([closedEvent idTest, closedEvent idA, closedEvent idA], error.other 2) }

/-! ## Basic facts -/

theorem writesOf_append (a b : Trace) : writesOf (a ++ b) = writesOf a ++ writesOf b := by
  induction a with
  | nil => rfl
  | cons x xs ih => cases x <;> simp [writesOf, ih]

theorem handlerCalls_append (a b : Trace) :
    handlerCalls (a ++ b) = handlerCalls a ++ handlerCalls b := by
  induction a with
  | nil => rfl
  | cons x xs ih => cases x <;> simp [handlerCalls, ih]

theorem agentStarts_append (a b : Trace) :
    agentStarts (a ++ b) = agentStarts a ++ agentStarts b := by
  induction a with
  | nil => rfl
  | cons x xs ih => cases x <;> simp [agentStarts, ih]

theorem agentStops_append (a b : Trace) :
    agentStops (a ++ b) = agentStops a ++ agentStops b := by
  induction a with
  | nil => rfl
  | cons x xs ih => cases x <;> simp [agentStops, ih]

theorem closeCalls_append (a b : Trace) :
    closeCalls (a ++ b) =
      ((closeCalls a).1 + (closeCalls b).1, (closeCalls a).2 + (closeCalls b).2) := by
  induction a with
  | nil => simp [closeCalls]
  | cons x xs ih => cases x <;> simp [closeCalls, ih] <;> omega

theorem wrapInt64_zero : wrapInt64 0 = 0 := by decide

theorem wrapInt32_of_inInt32 (x : Int) (h : inInt32 x) : wrapInt32 x = x := by
  unfold inInt32 at h
  unfold wrapInt32
  omega

theorem wrapInt64_of_inInt64 (x : Int) (h : inInt64 x) : wrapInt64 x = x := by
  unfold inInt64 at h
  unfold wrapInt64
  omega

/-! ## Starting a transaction -/

/-- C10: `Start(m, nil)`, and so `Indicate(m)`, on an open, initialized client
writes `m.Raw` to the connection exactly once, leaves the client (its
transaction map included) unchanged, calls neither `Agent.Start` nor
`Agent.Stop` whether or not the write fails, and returns exactly the error the
write returned. -/
theorem Start_nil_handler_only_writes (env : Env) (fuel : Nat) (m : Message) (s : State)
    (hinit : checkInit s.client = error.nil) (hopen : s.client.closed = false) :
    ∃ s1 : State,
      Start env fuel m none s = Outcome.ret (env.write s.trace m.Raw) s1 ∧
      Indicate env fuel m s = Outcome.ret (env.write s.trace m.Raw) s1 ∧
      s1.client = s.client ∧
      s1.trace = s.trace ++ [Action.connWrite m.Raw (env.write s.trace m.Raw)] ∧
      writesOf s1.trace = writesOf s.trace ++ [m.Raw] ∧
      agentStarts s1.trace = agentStarts s.trace ∧
      agentStops s1.trace = agentStops s.trace ∧
      handlerCalls s1.trace = handlerCalls s.trace := by
  refine ⟨s.log (Action.connWrite m.Raw (env.write s.trace m.Raw)), ?_, ?_, rfl, rfl, ?_, ?_, ?_, ?_⟩
  · simp [Start, hinit, hopen, Message.WriteTo]
  · simp [Indicate, Start, hinit, hopen, Message.WriteTo]
  · simp [State.log, writesOf_append, writesOf]
  · simp [State.log, agentStarts_append, agentStarts]
  · simp [State.log, agentStops_append, agentStops]
  · simp [State.log, handlerCalls_append, handlerCalls]

/-- C10 at a concrete input: an indication on a fresh client. -/
theorem Start_nil_handler_only_writes_witness :
    ∃ s1 : State,
      Start quietEnv 0 msgA none (newState 3 500)
        = Outcome.ret (quietEnv.write (newState 3 500).trace msgA.Raw) s1 ∧
      Indicate quietEnv 0 msgA (newState 3 500)
        = Outcome.ret (quietEnv.write (newState 3 500).trace msgA.Raw) s1 ∧
      s1.client = (newState 3 500).client ∧
      s1.trace = (newState 3 500).trace
        ++ [Action.connWrite msgA.Raw (quietEnv.write (newState 3 500).trace msgA.Raw)] ∧
      writesOf s1.trace = writesOf (newState 3 500).trace ++ [msgA.Raw] ∧
      agentStarts s1.trace = agentStarts (newState 3 500).trace ∧
      agentStops s1.trace = agentStops (newState 3 500).trace ∧
      handlerCalls s1.trace = handlerCalls (newState 3 500).trace :=
  Start_nil_handler_only_writes quietEnv 0 msgA (newState 3 500) (by decide) (by decide)

/-- C4: on an open, initialized client, `Start(m, h)` with a handler and an id
that is already a key of the transaction map returns `ErrTransactionExists`;
the client (and with it the registered transaction) is unchanged, `Agent.Start`
and `Agent.Stop` are not called, nothing is written and no handler runs. -/
theorem Start_duplicate_id (env : Env) (fuel : Nat) (m : Message) (f : Handler) (s : State)
    (mp : TMap) (t0 : clientTransaction)
    (hinit : checkInit s.client = error.nil) (hopen : s.client.closed = false)
    (hmap : s.client.t = some mp) (hdup : mp m.TransactionID = some t0) :
    ∃ s1 : State,
      Start env fuel m (some f) s = Outcome.ret error.ErrTransactionExists s1 ∧
      s1.client = s.client ∧
      s1.client.t = some mp ∧
      s1.trace = s.trace ++ [Action.clockNow (env.now s.trace)] ∧
      agentStarts s1.trace = agentStarts s.trace ∧
      agentStops s1.trace = agentStops s.trace ∧
      writesOf s1.trace = writesOf s.trace ∧
      handlerCalls s1.trace = handlerCalls s.trace := by
  refine ⟨s.log (Action.clockNow (env.now s.trace)), ?_, rfl, hmap, rfl, ?_, ?_, ?_, ?_⟩
  · simp [Start, hinit, hopen, start, State.log, hmap, hdup]
  · simp [State.log, agentStarts_append, agentStarts]
  · simp [State.log, agentStops_append, agentStops]
  · simp [State.log, writesOf_append, writesOf]
  · simp [State.log, handlerCalls_append, handlerCalls]

/-- C4 at a concrete input: a second `Start` for the pending id of `txA`. -/
theorem Start_duplicate_id_witness :
    ∃ s1 : State,
      Start quietEnv 0 msgA (some 8) (pendingState 3 0 false)
        = Outcome.ret error.ErrTransactionExists s1 ∧
      s1.client = (pendingState 3 0 false).client ∧
      s1.client.t = some (TMap.insert (fun _ => none) idA (txA 0)) ∧
      s1.trace = (pendingState 3 0 false).trace
        ++ [Action.clockNow (quietEnv.now (pendingState 3 0 false).trace)] ∧
      agentStarts s1.trace = agentStarts (pendingState 3 0 false).trace ∧
      agentStops s1.trace = agentStops (pendingState 3 0 false).trace ∧
      writesOf s1.trace = writesOf (pendingState 3 0 false).trace ∧
      handlerCalls s1.trace = handlerCalls (pendingState 3 0 false).trace :=
  Start_duplicate_id quietEnv 0 msgA 8 (pendingState 3 0 false)
    (TMap.insert (fun _ => none) idA (txA 0)) (txA 0) (by decide) (by decide) rfl (by decide)

/-! ## The agent callback, branch by branch -/

theorem handleAgentCallback_not_found (env : Env) (fuel : Nat) (e : Event) (s : State)
    (m : TMap) (hmap : s.client.t = some m) (hnone : m e.TransactionID = none) :
    handleAgentCallback env (fuel + 1) e s = Outcome.ret () (s.setMap (m.erase zeroID)) := by
  simp [handleAgentCallback, hmap, hnone, zeroTransaction]

theorem handleAgentCallback_terminal (env : Env) (fuel : Nat) (e : Event) (s : State)
    (m : TMap) (t : clientTransaction)
    (hmap : s.client.t = some m) (hsome : m e.TransactionID = some t)
    (hterm : s.client.maxAttempts < t.attempt ∨ e.Error = error.nil) :
    handleAgentCallback env (fuel + 1) e s = callHandler t.h e (s.setMap (m.erase t.id)) := by
  simp [handleAgentCallback, hmap, hsome, State.setMap, hterm]

theorem handleAgentCallback_retry_closed (env : Env) (fuel : Nat) (e : Event) (s : State)
    (m : TMap) (t : clientTransaction)
    (hmap : s.client.t = some m) (hsome : m e.TransactionID = some t)
    (hbudget : ¬ s.client.maxAttempts < t.attempt) (herr : e.Error ≠ error.nil)
    (hclosed : s.client.closed = true) :
    handleAgentCallback env (fuel + 1) e s
      = callHandler t.h { e with Error := error.ErrAgentClosed } (s.setMap (m.erase t.id)) := by
  simp [handleAgentCallback, hmap, hsome, State.setMap, hbudget, herr, start, hclosed]

theorem handleAgentCallback_retry_ok (env : Env) (fuel : Nat) (e : Event) (s : State)
    (m : TMap) (t : clientTransaction)
    (hmap : s.client.t = some m) (hsome : m e.TransactionID = some t)
    (hbudget : ¬ s.client.maxAttempts < t.attempt) (herr : e.Error ≠ error.nil)
    (hopen : s.client.closed = false)
    (hstart : env.agentStart (s.trace ++ [Action.clockNow (env.now s.trace)]) t.id
        (env.now s.trace + wrapInt64 (wrapInt32 (t.attempt + 1) * t.rto)) = error.nil)
    (hwrite : env.write (s.trace ++ [Action.clockNow (env.now s.trace),
        Action.agentStart t.id
          (env.now s.trace + wrapInt64 (wrapInt32 (t.attempt + 1) * t.rto)) error.nil])
        t.raw = error.nil) :
    handleAgentCallback env (fuel + 1) e s
      = Outcome.ret ()
          { client := { s.client with
              t := some ((m.erase t.id).insert t.id
                { t with attempt := wrapInt32 (t.attempt + 1) }) }
            trace := s.trace ++ [Action.clockNow (env.now s.trace),
              Action.agentStart t.id
                (env.now s.trace + wrapInt64 (wrapInt32 (t.attempt + 1) * t.rto)) error.nil,
              Action.connWrite t.raw error.nil] } := by
  simp [handleAgentCallback, hmap, hsome, State.setMap, hbudget, herr, start, hopen,
    TMap.erase, State.log, clientTransaction.nextTimeout, hstart, hwrite]

/-! ## A successful `Start` -/

/-- The transaction `Start` builds for `m` and handler `f` in state `s`. -/
theorem Start_registers (env : Env) (fuel : Nat) (m : Message) (f : Handler) (s : State)
    (mp : TMap)
    (hinit : checkInit s.client = error.nil) (hopen : s.client.closed = false)
    (hmap : s.client.t = some mp) (hfresh : mp m.TransactionID = none)
    (hstart : env.agentStart (s.trace ++ [Action.clockNow (env.now s.trace)])
        m.TransactionID (env.now s.trace) = error.nil)
    (hwrite : env.write (s.trace ++ [Action.clockNow (env.now s.trace),
        Action.agentStart m.TransactionID (env.now s.trace) error.nil]) m.Raw = error.nil) :
    Start env fuel m (some f) s
      = Outcome.ret error.nil
          { client := { s.client with
              t := some (mp.insert m.TransactionID
                { id := m.TransactionID, start := env.now s.trace, rto := s.client.rto,
                  attempt := 0, h := some f, raw := m.Raw.take 1500 }) }
            trace := s.trace ++ [Action.clockNow (env.now s.trace),
              Action.agentStart m.TransactionID (env.now s.trace) error.nil,
              Action.connWrite m.Raw error.nil] } := by
  simp [Start, hinit, hopen, start, State.log, hmap, hfresh, State.setMap,
    clientTransaction.nextTimeout, wrapInt64_zero, hstart, Message.WriteTo, hwrite]

/-! ## The silent-peer scenario -/

theorem timeoutsUntilFinished_done (env : Env) (fuel rounds : Nat) (id : transactionID)
    (s : State) (h : pending id s = false) :
    timeoutsUntilFinished env fuel rounds id s = Outcome.ret () s := by
  cases rounds <;> simp [timeoutsUntilFinished, h]

/-- With a connection and an agent that never fail, a pending transaction with
attempt count `a ≤ maxAttempts + 1` is retransmitted `maxAttempts + 1 - a`
times and then handed to its handler with the timeout. -/
theorem timeoutsUntilFinished_run (env : Env) (fuel : Nat) (id : transactionID) (h : Handler)
    (n : Nat)
    (hw : ∀ tr b, env.write tr b = error.nil)
    (ha : ∀ tr i d, env.agentStart tr i d = error.nil)
    (hn : (n : Int) + 1 < 2 ^ 31) :
    ∀ (d : Nat) (s : State) (m : TMap) (t : clientTransaction) (a rounds : Nat),
      s.client.t = some m → m id = some t → t.id = id → t.attempt = (a : Int) →
      t.h = some h → s.client.maxAttempts = (n : Int) → s.client.closed = false →
      a + d = n + 1 → d + 1 ≤ rounds →
      ∃ s2 : State,
        timeoutsUntilFinished env (fuel + 1) rounds id s = Outcome.ret () s2 ∧
        pending id s2 = false ∧
        handlerCalls s2.trace = handlerCalls s.trace ++ [(h, timeoutEvent id)] ∧
        writesOf s2.trace = writesOf s.trace ++ List.replicate d t.raw := by
  intro d
  induction d with
  | zero =>
    intro s m t a rounds hmap hsome hid hatt hh hmax hopen had hr
    obtain ⟨r, rfl⟩ : ∃ r, rounds = r + 1 := ⟨rounds - 1, by omega⟩
    have hpend : pending id s = true := by simp [pending, hmap, hsome]
    have hterm : s.client.maxAttempts < t.attempt ∨ (timeoutEvent id).Error = error.nil := by
      left; rw [hmax, hatt]; omega
    have hstep := handleAgentCallback_terminal env fuel (timeoutEvent id) s m t hmap
      (by simpa [timeoutEvent] using hsome) hterm
    refine ⟨(s.setMap (m.erase t.id)).log (Action.handle h (timeoutEvent id)), ?_, ?_, ?_, ?_⟩
    · simp only [timeoutsUntilFinished, hpend, if_true, hstep, hh, callHandler]
      apply timeoutsUntilFinished_done
      simp [pending, State.log, State.setMap, TMap.erase, hid]
    · simp [pending, State.log, State.setMap, TMap.erase, hid]
    · simp [State.log, State.setMap, handlerCalls_append, handlerCalls]
    · simp [State.log, State.setMap, writesOf_append, writesOf]
  | succ d ih =>
    intro s m t a rounds hmap hsome hid hatt hh hmax hopen had hr
    obtain ⟨r, rfl⟩ : ∃ r, rounds = r + 1 := ⟨rounds - 1, by omega⟩
    have hpend : pending id s = true := by simp [pending, hmap, hsome]
    have hbudget : ¬ s.client.maxAttempts < t.attempt := by rw [hmax, hatt]; omega
    have hwrap : wrapInt32 (t.attempt + 1) = ((a + 1 : Nat) : Int) := by
      rw [wrapInt32_of_inInt32]
      · rw [hatt]; push_cast; ring
      · unfold inInt32; rw [hatt]; omega
    have hstep := handleAgentCallback_retry_ok env fuel (timeoutEvent id) s m t hmap
      (by simpa [timeoutEvent] using hsome) hbudget (by simp [timeoutEvent]) hopen
      (ha _ _ _) (hw _ _)
    obtain ⟨s2, h1, h2, h3, h4⟩ := ih
      { client := { s.client with
          t := some ((m.erase t.id).insert t.id
            { t with attempt := wrapInt32 (t.attempt + 1) }) }
        trace := s.trace ++ [Action.clockNow (env.now s.trace),
          Action.agentStart t.id
            (env.now s.trace + wrapInt64 (wrapInt32 (t.attempt + 1) * t.rto)) error.nil,
          Action.connWrite t.raw error.nil] }
      ((m.erase t.id).insert t.id
        { t with attempt := wrapInt32 (t.attempt + 1) })
      { t with attempt := wrapInt32 (t.attempt + 1) } (a + 1) r rfl
      (by simp [TMap.insert, hid]) hid hwrap hh hmax hopen (by omega) (by omega)
    refine ⟨s2, ?_, h2, ?_, ?_⟩
    · simp only [timeoutsUntilFinished, hpend, if_true, hstep]
      exact h1
    · rw [h3]; simp [handlerCalls_append, handlerCalls]
    · rw [h4]; simp [writesOf_append, writesOf, List.replicate_succ]

/-! ## What the agent callback never touches -/

theorem sameConfig_refl (s : State) : sameConfig s s := by simp [sameConfig]

theorem sameConfig_trans {s s1 s2 : State} (h1 : sameConfig s s1) (h2 : sameConfig s1 s2) :
    sameConfig s s2 := by
  unfold sameConfig at *
  obtain ⟨a1, a2, a3, a4, a5, a6⟩ := h1
  obtain ⟨b1, b2, b3, b4, b5, b6⟩ := h2
  exact ⟨b1.trans a1, b2.trans a2, b3.trans a3, b4.trans a4, b5.trans a5, b6.trans a6⟩

theorem sameConfig_log (s : State) (a : Action) : sameConfig s (s.log a) := by
  simp [sameConfig, State.log]

theorem sameConfig_setMap (s : State) (m : TMap) : sameConfig s (s.setMap m) := by
  simp [sameConfig, State.setMap]

theorem sameConfig_delete (s : State) (id : transactionID) : sameConfig s (delete id s) := by
  unfold delete
  split
  · exact sameConfig_refl s
  · exact sameConfig_setMap s _

theorem sameConfig_log_left (s s1 : State) (a : Action) :
    sameConfig (s.log a) s1 ↔ sameConfig s s1 := by
  simp [sameConfig, State.log]

theorem sameConfig_setMap_left (s s1 : State) (m : TMap) :
    sameConfig (s.setMap m) s1 ↔ sameConfig s s1 := by
  simp [sameConfig, State.setMap]

theorem sameConfig_delete_left (s s1 : State) (id : transactionID) :
    sameConfig (delete id s) s1 ↔ sameConfig s s1 := by
  unfold delete
  split
  · rfl
  · exact sameConfig_setMap_left s s1 _

theorem callHandler_frame {h : Option Handler} {e : Event} {s s1 : State} {u : Unit}
    (hr : callHandler h e s = Outcome.ret u s1) : sameConfig s s1 := by
  unfold callHandler at hr
  split at hr
  · cases hr
  · cases hr; exact sameConfig_log s _

theorem start_frame {t : clientTransaction} {s s1 : State} {err : error}
    (hr : start t s = Outcome.ret err s1) : sameConfig s s1 := by
  unfold start at hr
  split at hr
  · cases hr; exact sameConfig_refl s
  · split at hr
    · cases hr
    · split at hr
      · cases hr; exact sameConfig_refl s
      · cases hr; exact sameConfig_setMap s _

theorem deliver_frame (cb : Event → State → Outcome Unit)
    (hcb : ∀ e s s1 u, cb e s = Outcome.ret u s1 → sameConfig s s1) :
    ∀ (evs : List Event) (s s1 : State) (u : Unit),
      deliver cb evs s = Outcome.ret u s1 → sameConfig s s1 := by
  intro evs
  induction evs with
  | nil => intro s s1 u h; simp [deliver] at h; cases h; exact sameConfig_refl s
  | cons e es ih =>
    intro s s1 u h
    simp only [deliver] at h
    split at h
    · next u2 s2 hc => exact sameConfig_trans (hcb _ _ _ _ hc) (ih _ _ _ h)
    · cases h
    · cases h

theorem handleAgentCallback_frame (env : Env) :
    ∀ (fuel : Nat) (e : Event) (s s1 : State) (u : Unit),
      handleAgentCallback env fuel e s = Outcome.ret u s1 → sameConfig s s1 := by
  intro fuel
  induction fuel with
  | zero => intro e s s1 u h; simp [handleAgentCallback] at h
  | succ fuel ih =>
    intro e s s1 u h
    simp only [handleAgentCallback] at h
    split at h
    · cases h; exact sameConfig_refl s
    · next m hmap =>
      split at h
      · cases h; exact sameConfig_setMap s _
      · split at h
        · simpa only [sameConfig_setMap_left] using callHandler_frame h
        · split at h
          · cases h
          · cases h
          · next err s2 hst =>
            have hs2 := start_frame hst
            simp only [sameConfig_setMap_left] at hs2
            refine sameConfig_trans hs2 ?_
            split at h
            · exact callHandler_frame h
            · split at h
              · simpa only [sameConfig_delete_left, sameConfig_log_left] using
                  callHandler_frame h
              · split at h
                · split at h
                  · cases h
                  · cases h
                  · next u8 s8 hd =>
                    have hs8 := deliver_frame _ ih _ _ _ _ hd
                    simp only [sameConfig_delete_left, sameConfig_log_left] at hs8
                    refine sameConfig_trans hs8 ?_
                    split at h
                    · exact callHandler_frame h
                    · exact callHandler_frame h
                · cases h
                  exact sameConfig_trans (sameConfig_log _ _)
                    (sameConfig_trans (sameConfig_log _ _) (sameConfig_log _ _))

/-- Against a peer that never answers, with a connection and an agent that
never fail, `Start(m, h)` on an open client with retry budget
`maxAttempts = n` ends with exactly one call of `h`, with
`ErrTransactionTimeOut`, after exactly `n + 2` writes: the write of `m.Raw`
made by `Start` and `n + 1` retransmissions of the stored bytes. -/
theorem silent_peer_writes_budget_plus_two (env : Env) (fuel rounds : Nat) (m : Message)
    (f : Handler) (s : State) (mp : TMap) (n : Nat)
    (hw : ∀ tr b, env.write tr b = error.nil)
    (ha : ∀ tr i d, env.agentStart tr i d = error.nil)
    (hinit : checkInit s.client = error.nil) (hopen : s.client.closed = false)
    (hmap : s.client.t = some mp) (hfresh : mp m.TransactionID = none)
    (hmax : s.client.maxAttempts = (n : Int)) (hn : (n : Int) + 1 < 2 ^ 31)
    (hr : n + 2 ≤ rounds) :
    ∃ s2 : State,
      silentPeerRun env (fuel + 1) rounds m f s = Outcome.ret error.nil s2 ∧
      pending m.TransactionID s2 = false ∧
      handlerCalls s2.trace = handlerCalls s.trace ++ [(f, timeoutEvent m.TransactionID)] ∧
      writesOf s2.trace
        = writesOf s.trace ++ m.Raw :: List.replicate (n + 1) (m.Raw.take 1500) ∧
      (writesOf s2.trace).length = (writesOf s.trace).length + (n + 2) := by
  have hS := Start_registers env (fuel + 1) m f s mp hinit hopen hmap hfresh (ha _ _ _) (hw _ _)
  obtain ⟨s2, h1, h2, h3, h4⟩ := timeoutsUntilFinished_run env fuel m.TransactionID f n hw ha hn
    (n + 1)
    { client := { s.client with
        t := some (mp.insert m.TransactionID
          { id := m.TransactionID, start := env.now s.trace, rto := s.client.rto,
            attempt := 0, h := some f, raw := m.Raw.take 1500 }) }
      trace := s.trace ++ [Action.clockNow (env.now s.trace),
        Action.agentStart m.TransactionID (env.now s.trace) error.nil,
        Action.connWrite m.Raw error.nil] }
    (mp.insert m.TransactionID
      { id := m.TransactionID, start := env.now s.trace, rto := s.client.rto,
        attempt := 0, h := some f, raw := m.Raw.take 1500 })
    { id := m.TransactionID, start := env.now s.trace, rto := s.client.rto,
      attempt := 0, h := some f, raw := m.Raw.take 1500 }
    0 rounds rfl (by simp [TMap.insert]) rfl (by simp) rfl hmax hopen (by omega) (by omega)
  have hwr : writesOf s2.trace
      = writesOf s.trace ++ m.Raw :: List.replicate (n + 1) (m.Raw.take 1500) := by
    rw [h4]; simp [writesOf_append, writesOf]
  refine ⟨s2, ?_, h2, ?_, hwr, ?_⟩
  · simp only [silentPeerRun, hS, h1]
    simp
  · rw [h3]; simp [handlerCalls_append, handlerCalls]
  · rw [hwr]; simp

/-- The run of `silent_peer_writes_budget_plus_two` with budget 3 on a fresh client. -/
theorem silent_peer_writes_budget_plus_two_example :
    ∃ s2 : State,
      silentPeerRun quietEnv (0 + 1) 5 msgA 7 (newState 3 500) = Outcome.ret error.nil s2 ∧
      pending msgA.TransactionID s2 = false ∧
      handlerCalls s2.trace
        = handlerCalls (newState 3 500).trace ++ [(7, timeoutEvent msgA.TransactionID)] ∧
      writesOf s2.trace
        = writesOf (newState 3 500).trace
          ++ msgA.Raw :: List.replicate (3 + 1) (msgA.Raw.take 1500) ∧
      (writesOf s2.trace).length = (writesOf (newState 3 500).trace).length + (3 + 2) :=
  silent_peer_writes_budget_plus_two quietEnv 0 5 msgA 7 (newState 3 500) (fun _ => none) 3
    (fun _ _ => rfl) (fun _ _ _ => rfl) (by decide) (by decide) rfl rfl rfl (by decide)
    (by decide)

/-- C1 at budget 3 against a peer that never answers: the handler is called
once with the timeout, but the connection has received 5 writes of the same
bytes, not 3; the attempt counter passes `maxAttempts`. -/
theorem silent_peer_budget_three_five_writes :
    ∃ s2 : State,
      silentPeerRun quietEnv 1 5 msgA 7 (newState 3 500) = Outcome.ret error.nil s2 ∧
      pending idA s2 = false ∧
      handlerCalls s2.trace = [(7, timeoutEvent idA)] ∧
      writesOf s2.trace = [msgA.Raw, msgA.Raw, msgA.Raw, msgA.Raw, msgA.Raw] ∧
      (writesOf s2.trace).length ≠ 3 := by
  refine ⟨_, rfl, ?_, ?_, ?_, ?_⟩ <;> decide

/-! ## Closing -/

/-- Once the client is closed, an `ErrAgentClosed` event for a transaction that
`Start` registered with handler `h` and that is still in the map makes
`handleAgentCallback` call `h` exactly once, with that event (its error is
`ErrAgentClosed`); the transaction is gone from the map afterwards,
`Agent.Start` and `Agent.Stop` are not called and nothing is written. -/
theorem closed_client_hands_ErrAgentClosed (env : Env) (fuel : Nat) (e : Event) (s : State)
    (m : TMap) (t : clientTransaction) (f : Handler)
    (hclosed : s.client.closed = true)
    (hmap : s.client.t = some m) (hsome : m e.TransactionID = some t)
    (hid : t.id = e.TransactionID) (hh : t.h = some f)
    (herr : e.Error = error.ErrAgentClosed) :
    ∃ s1 : State,
      handleAgentCallback env (fuel + 1) e s = Outcome.ret () s1 ∧
      s1.trace = s.trace ++ [Action.handle f e] ∧
      handlerCalls s1.trace = handlerCalls s.trace ++ [(f, e)] ∧
      e.Error = error.ErrAgentClosed ∧
      s1.client.t = some (m.erase e.TransactionID) ∧
      pending e.TransactionID s1 = false ∧
      agentStarts s1.trace = agentStarts s.trace ∧
      agentStops s1.trace = agentStops s.trace ∧
      writesOf s1.trace = writesOf s.trace := by
  have he : ({ e with Error := error.ErrAgentClosed } : Event) = e := by
    cases e; simp_all
  have hrun : handleAgentCallback env (fuel + 1) e s
      = Outcome.ret () ((s.setMap (m.erase t.id)).log (Action.handle f e)) := by
    by_cases hb : s.client.maxAttempts < t.attempt
    · rw [handleAgentCallback_terminal env fuel e s m t hmap hsome (Or.inl hb), hh]
      rfl
    · rw [handleAgentCallback_retry_closed env fuel e s m t hmap hsome hb
        (by rw [herr]; decide) hclosed, hh, he]
      rfl
  refine ⟨_, hrun, rfl, ?_, herr, ?_, ?_, ?_, ?_, ?_⟩
  · simp [State.log, State.setMap, handlerCalls_append, handlerCalls]
  · simp [State.log, State.setMap, hid]
  · simp [pending, State.log, State.setMap, TMap.erase, hid]
  · simp [State.log, State.setMap, agentStarts_append, agentStarts]
  · simp [State.log, State.setMap, agentStops_append, agentStops]
  · simp [State.log, State.setMap, writesOf_append, writesOf]

/-- The statement of `closed_client_hands_ErrAgentClosed` for `txA` after one
retransmission, client closed. -/
theorem closed_client_hands_ErrAgentClosed_example :
    ∃ s1 : State,
      handleAgentCallback quietEnv (0 + 1) (closedEvent idA) (pendingState 3 1 true)
        = Outcome.ret () s1 ∧
      s1.trace = (pendingState 3 1 true).trace ++ [Action.handle 7 (closedEvent idA)] ∧
      handlerCalls s1.trace
        = handlerCalls (pendingState 3 1 true).trace ++ [(7, closedEvent idA)] ∧
      (closedEvent idA).Error = error.ErrAgentClosed ∧
      s1.client.t
        = some ((TMap.insert (fun _ => none) idA (txA 1)).erase (closedEvent idA).TransactionID) ∧
      pending (closedEvent idA).TransactionID s1 = false ∧
      agentStarts s1.trace = agentStarts (pendingState 3 1 true).trace ∧
      agentStops s1.trace = agentStops (pendingState 3 1 true).trace ∧
      writesOf s1.trace = writesOf (pendingState 3 1 true).trace :=
  closed_client_hands_ErrAgentClosed quietEnv 0 (closedEvent idA) (pendingState 3 1 true)
    (TMap.insert (fun _ => none) idA (txA 1)) (txA 1) 7 rfl rfl (by decide) rfl rfl rfl

theorem Close_returns_closed (env : Env) (fuel : Nat) (s s1 : State) (r : error)
    (hinit : checkInit s.client = error.nil) (hclose : Close env fuel s = Outcome.ret r s1) :
    checkInit s1.client = error.nil ∧ s1.client.closed = true := by
  unfold Close at hclose
  simp only [hinit, ne_eq, not_true_eq_false, if_false] at hclose
  split at hclose
  · next hc => cases hclose; exact ⟨hinit, hc⟩
  · split at hclose
    · cases hclose
    · cases hclose
    · next u s3 hd =>
      have hf := deliver_frame _ (handleAgentCallback_frame env fuel) _ _ _ _ hd
      have hs1 : sameConfig s3 s1 := by
        split at hclose <;> cases hclose <;> exact sameConfig_log _ _
      obtain ⟨h1, h2, h3, h4, _, _⟩ := sameConfig_trans hf hs1
      simp only [State.log] at h1 h2 h3 h4
      refine ⟨?_, h4⟩
      simp only [checkInit, h1, h2, h3] at hinit ⊢
      exact hinit

/-- C6: after `Close` has returned once on an initialized client, every later
`Close`, `Start`, `Indicate` and `Do` (with or without a callback) returns
`ErrClientClosed` and leaves the state as it was: the trace gets no write, no
agent or connection call and no handler call, and the map is unchanged. -/
theorem closed_client_refuses (env : Env) (fuel : Nat) (s s1 : State) (r : error)
    (env2 : Env) (fuel2 : Nat) (m : Message) (f : Option Handler)
    (hinit : checkInit s.client = error.nil) (hclose : Close env fuel s = Outcome.ret r s1) :
    Close env2 fuel2 s1 = Outcome.ret error.ErrClientClosed s1 ∧
    Start env2 fuel2 m f s1 = Outcome.ret error.ErrClientClosed s1 ∧
    Indicate env2 fuel2 m s1 = Outcome.ret error.ErrClientClosed s1 ∧
    Do env2 fuel2 m f s1 = Outcome.ret (DoResult.returned error.ErrClientClosed) s1 := by
  obtain ⟨hi, hc⟩ := Close_returns_closed env fuel s s1 r hinit hclose
  have hS : ∀ g, Start env2 fuel2 m g s1 = Outcome.ret error.ErrClientClosed s1 := by
    intro g; simp [Start, hi, hc]
  refine ⟨?_, hS f, ?_, ?_⟩
  · simp [Close, hi, hc]
  · simp [Indicate, hS]
  · cases f with
    | none => simp [Do, hi, Indicate, hS]
    | some g => simp [Do, hi, hS]

/-- C6 at a concrete input: a fresh client closed once, then used again. -/
theorem closed_client_refuses_witness :
    Close quietEnv 0 (closedState 3 500)
      = Outcome.ret error.ErrClientClosed (closedState 3 500) ∧
    Start quietEnv 0 msgA (some 7) (closedState 3 500)
      = Outcome.ret error.ErrClientClosed (closedState 3 500) ∧
    Indicate quietEnv 0 msgA (closedState 3 500)
      = Outcome.ret error.ErrClientClosed (closedState 3 500) ∧
    Do quietEnv 0 msgA (some 7) (closedState 3 500)
      = Outcome.ret (DoResult.returned error.ErrClientClosed) (closedState 3 500) :=
  closed_client_refuses quietEnv 0 (newState 3 500) (closedState 3 500) error.nil
    quietEnv 0 msgA (some 7) (by decide) rfl

/-! ## A failed write in `Start` -/

/-- Events for an id that is not in the map leave the trace alone and do not
bring the id back. -/
theorem deliver_unknown_id (env : Env) (fuel : Nat) (id : transactionID) :
    ∀ (evs : List Event) (s : State) (mp : TMap),
      s.client.t = some mp → mp id = none → (∀ e ∈ evs, e.TransactionID = id) →
      ∃ (s1 : State) (mp1 : TMap),
        deliver (handleAgentCallback env (fuel + 1)) evs s = Outcome.ret () s1 ∧
        s1.trace = s.trace ∧ s1.client.t = some mp1 ∧ mp1 id = none := by
  intro evs
  induction evs with
  | nil =>
    intro s mp hmap hnone _
    exact ⟨s, mp, rfl, rfl, hmap, hnone⟩
  | cons e es ih =>
    intro s mp hmap hnone hall
    have he : e.TransactionID = id := hall e (List.mem_cons_self _ _)
    have hstep := handleAgentCallback_not_found env fuel e s mp hmap (by rw [he]; exact hnone)
    obtain ⟨s1, mp1, h1, h2, h3, h4⟩ := ih (s.setMap (mp.erase zeroID)) (mp.erase zeroID) rfl
      (by simp [TMap.erase, hnone]) (fun x hx => hall x (List.mem_cons_of_mem _ hx))
    refine ⟨s1, mp1, ?_, h2, h3, h4⟩
    simp only [deliver, hstep]
    exact h1

/-- C7: when `Start(m, h)` has registered the transaction and the write fails
with `w`, the transaction is removed from the client map and `Agent.Stop` is
called for the id; `Start` returns `w` itself when `Stop` succeeds and
`StopErr{Err: s, Cause: w}` when `Stop` fails with `s`; no handler runs, even
though `Stop` calls back into `handleAgentCallback` for that id. -/
theorem Start_write_failure (env : Env) (fuel : Nat) (m : Message) (f : Handler) (s : State)
    (mp : TMap) (w sErr : error) (evs : List Event)
    (hinit : checkInit s.client = error.nil) (hopen : s.client.closed = false)
    (hmap : s.client.t = some mp) (hfresh : mp m.TransactionID = none)
    (hstart : env.agentStart (s.trace ++ [Action.clockNow (env.now s.trace)])
        m.TransactionID (env.now s.trace) = error.nil)
    (hwrite : env.write (s.trace ++ [Action.clockNow (env.now s.trace),
        Action.agentStart m.TransactionID (env.now s.trace) error.nil]) m.Raw = w)
    (hw : w ≠ error.nil)
    (hstop : env.agentStop (s.trace ++ [Action.clockNow (env.now s.trace),
        Action.agentStart m.TransactionID (env.now s.trace) error.nil,
        Action.connWrite m.Raw w]) m.TransactionID = (evs, sErr))
    (hevs : ∀ e ∈ evs, e.TransactionID = m.TransactionID) :
    ∃ (s1 : State) (mp1 : TMap),
      Start env (fuel + 1) m (some f) s
        = Outcome.ret (if sErr = error.nil then w else error.StopErr sErr w) s1 ∧
      s1.client.t = some mp1 ∧ mp1 m.TransactionID = none ∧
      s1.trace = s.trace ++ [Action.clockNow (env.now s.trace),
        Action.agentStart m.TransactionID (env.now s.trace) error.nil,
        Action.connWrite m.Raw w, Action.agentStop m.TransactionID sErr] ∧
      agentStops s1.trace = agentStops s.trace ++ [m.TransactionID] ∧
      handlerCalls s1.trace = handlerCalls s.trace := by
  obtain ⟨s1, mp1, h1, h2, h3, h4⟩ := deliver_unknown_id env fuel m.TransactionID evs
    { client := { s.client with
        t := some ((mp.insert m.TransactionID
          { id := m.TransactionID, start := env.now s.trace, rto := s.client.rto,
            attempt := 0, h := some f, raw := m.Raw.take 1500 }).erase m.TransactionID) }
      trace := s.trace ++ [Action.clockNow (env.now s.trace),
        Action.agentStart m.TransactionID (env.now s.trace) error.nil,
        Action.connWrite m.Raw w, Action.agentStop m.TransactionID sErr] }
    _ rfl (by simp [TMap.erase]) hevs
  refine ⟨s1, mp1, ?_, h3, h4, h2, ?_, ?_⟩
  · have hS : Start env (fuel + 1) m (some f) s
        = (match deliver (handleAgentCallback env (fuel + 1)) evs
            { client := { s.client with
                t := some ((mp.insert m.TransactionID
                  { id := m.TransactionID, start := env.now s.trace, rto := s.client.rto,
                    attempt := 0, h := some f, raw := m.Raw.take 1500 }).erase m.TransactionID) }
              trace := s.trace ++ [Action.clockNow (env.now s.trace),
                Action.agentStart m.TransactionID (env.now s.trace) error.nil,
                Action.connWrite m.Raw w, Action.agentStop m.TransactionID sErr] } with
          | Outcome.panic s4 => Outcome.panic s4
          | Outcome.outOfFuel => Outcome.outOfFuel
          | Outcome.ret _ s4 =>
            if sErr ≠ error.nil then Outcome.ret (error.StopErr sErr w) s4
            else Outcome.ret w s4) := by
      simp [Start, hinit, hopen, start, State.log, hmap, hfresh, State.setMap,
        clientTransaction.nextTimeout, wrapInt64_zero, hstart, Message.WriteTo, hwrite, hw,
        delete, hstop]
    rw [hS, h1]
    by_cases hs : sErr = error.nil <;> simp [hs]
  · rw [h2]; simp [agentStops_append, agentStops]
  · rw [h2]; simp [handlerCalls_append, handlerCalls]

/-- C7 at a concrete input: every write fails and `Stop` calls back. -/
theorem Start_write_failure_witness :
    ∃ (s1 : State) (mp1 : TMap),
      Start brokenPipeEnv (0 + 1) msgA (some 7) (newState 3 500)
        = Outcome.ret
            (if error.nil = error.nil then error.other 1
              else error.StopErr error.nil (error.other 1)) s1 ∧
      s1.client.t = some mp1 ∧ mp1 msgA.TransactionID = none ∧
      s1.trace = (newState 3 500).trace
        ++ [Action.clockNow (brokenPipeEnv.now (newState 3 500).trace),
          Action.agentStart msgA.TransactionID (brokenPipeEnv.now (newState 3 500).trace)
            error.nil,
          Action.connWrite msgA.Raw (error.other 1),
          Action.agentStop msgA.TransactionID error.nil] ∧
      agentStops s1.trace = agentStops (newState 3 500).trace ++ [msgA.TransactionID] ∧
      handlerCalls s1.trace = handlerCalls (newState 3 500).trace :=
  Start_write_failure brokenPipeEnv 0 msgA 7 (newState 3 500) (fun _ => none)
    (error.other 1) error.nil [stoppedEvent idA] (by decide) (by decide) rfl rfl rfl rfl
    (by decide) rfl (by decide)

/-! ## `SetRTO` and transactions in flight -/

theorem mapState_ret {α : Type} (g : State → State) (a : α) (s : State) :
    (Outcome.ret a s).mapState g = Outcome.ret a (g s) := rfl

theorem mapState_panic {α : Type} (g : State → State) (s : State) :
    (Outcome.panic s : Outcome α).mapState g = Outcome.panic (g s) := rfl

theorem mapState_outOfFuel {α : Type} (g : State → State) :
    (Outcome.outOfFuel : Outcome α).mapState g = Outcome.outOfFuel := rfl

theorem SetRTO_log (r : Int) (s : State) (a : Action) :
    (SetRTO r s).log a = SetRTO r (s.log a) := rfl

theorem SetRTO_setMap (r : Int) (s : State) (m : TMap) :
    (SetRTO r s).setMap m = SetRTO r (s.setMap m) := rfl

theorem SetRTO_delete (r : Int) (s : State) (id : transactionID) :
    delete id (SetRTO r s) = SetRTO r (delete id s) := by
  unfold delete
  cases h : s.client.t <;> simp [SetRTO, h, State.setMap]

theorem SetRTO_callHandler (r : Int) (h : Option Handler) (e : Event) (s : State) :
    callHandler h e (SetRTO r s) = (callHandler h e s).mapState (SetRTO r) := by
  cases h <;> rfl

theorem SetRTO_start (r : Int) (t : clientTransaction) (s : State) :
    start t (SetRTO r s) = (start t s).mapState (SetRTO r) := by
  unfold start
  by_cases hc : s.client.closed = true
  · simp [SetRTO, hc, Outcome.mapState]
  · cases hm : s.client.t with
    | none => simp [SetRTO, hc, hm, Outcome.mapState]
    | some m =>
      cases hl : m t.id <;> simp [SetRTO, hc, hm, hl, Outcome.mapState, State.setMap]

theorem SetRTO_deliver (r : Int) (cb : Event → State → Outcome Unit)
    (hcb : ∀ e s, cb e (SetRTO r s) = (cb e s).mapState (SetRTO r)) :
    ∀ (evs : List Event) (s : State),
      deliver cb evs (SetRTO r s) = (deliver cb evs s).mapState (SetRTO r) := by
  intro evs
  induction evs with
  | nil => intro s; rfl
  | cons e es ih =>
    intro s
    simp only [deliver, hcb]
    cases hc : cb e s with
    | ret u s1 => simp only [Outcome.mapState]; exact ih s1
    | panic s1 => rfl
    | outOfFuel => rfl

theorem SetRTO_handleAgentCallback (env : Env) (r : Int) :
    ∀ (fuel : Nat) (e : Event) (s : State),
      handleAgentCallback env fuel e (SetRTO r s)
        = (handleAgentCallback env fuel e s).mapState (SetRTO r) := by
  intro fuel
  induction fuel with
  | zero => intro e s; rfl
  | succ fuel ih =>
    intro e s
    simp only [handleAgentCallback]
    cases hm : s.client.t with
    | none =>
      have : (SetRTO r s).client.t = none := hm
      simp only [this, Outcome.mapState]
    | some m =>
      have : (SetRTO r s).client.t = some m := hm
      simp only [this]
      cases hl : m e.TransactionID with
      | none => simp only [Outcome.mapState, SetRTO_setMap]
      | some t =>
        simp only [SetRTO_setMap, Option.getD_some]
        generalize s.setMap (m.erase t.id) = s1
        have hmax : ∀ x : State, (SetRTO r x).client.maxAttempts = x.client.maxAttempts :=
          fun _ => rfl
        have htr : ∀ x : State, (SetRTO r x).trace = x.trace := fun _ => rfl
        simp only [hmax, htr, SetRTO_start, SetRTO_callHandler, SetRTO_log, SetRTO_delete]
        by_cases hterm : s1.client.maxAttempts < t.attempt ∨ e.Error = error.nil
        · simp only [hterm, if_true]
        · simp only [hterm, if_false]
          cases hst : start { t with attempt := wrapInt32 (t.attempt + 1) } s1 with
          | panic s2 => rfl
          | outOfFuel => rfl
          | ret err s2 =>
            simp only [mapState_ret, htr, SetRTO_callHandler, SetRTO_log, SetRTO_delete]
            by_cases herr : err ≠ error.nil
            · simp only [if_pos herr]
            · simp only [if_neg herr]
              generalize s2.log (Action.clockNow (env.now s2.trace)) = s3
              generalize ({ t with attempt := wrapInt32 (t.attempt + 1) } :
                clientTransaction).nextTimeout (env.now s2.trace) = d
              generalize env.agentStart s3.trace t.id d = aerr
              by_cases haerr : aerr ≠ error.nil
              · simp only [if_pos haerr]
              · simp only [if_neg haerr]
                generalize s3.log (Action.agentStart t.id d aerr) = s4
                generalize env.write s4.trace t.raw = werr
                by_cases hw : werr ≠ error.nil
                · simp only [if_pos hw]
                  generalize delete t.id (s4.log (Action.connWrite t.raw werr)) = s6
                  generalize env.agentStop s6.trace t.id = stop
                  rw [SetRTO_deliver r _ ih]
                  cases deliver (handleAgentCallback env fuel) stop.1
                      (s6.log (Action.agentStop t.id stop.2)) with
                  | ret u s8 =>
                    simp only [mapState_ret, SetRTO_callHandler]
                    by_cases hs : stop.2 ≠ error.nil
                    · simp only [if_pos hs]
                    · simp only [if_neg hs]
                  | panic s8 => rfl
                  | outOfFuel => rfl
                · simp only [if_neg hw, mapState_ret]

/-! ## The stored copy of the message -/

set_option maxRecDepth 100000 in
/-- C8 at a message of 1501 bytes: the client stores 1500 bytes, so the first
transmission has 1501 bytes and the retransmission only 1500. -/
theorem Start_truncates_long_message :
    ∃ s1 s2 : State,
      Start quietEnv 1 longMsg (some 7) (newState 3 500) = Outcome.ret error.nil s1 ∧
      handleAgentCallback quietEnv 1 (timeoutEvent idA) s1 = Outcome.ret () s2 ∧
      longMsg.Raw.length = 1501 ∧
      (storedRaw idA (Start quietEnv 1 longMsg (some 7) (newState 3 500))).map List.length
        = some 1500 ∧
      (writesOf s2.trace).map List.length = [1501, 1500] := by
  refine ⟨_, _, rfl, rfl, ?_, ?_, ?_⟩ <;> decide

/-- The transaction `Start` registers stores the first 1500 bytes of `m.Raw`
(all of `m.Raw` when it has at most 1500 bytes), while the first transmission
writes `m.Raw` itself; a retransmission writes exactly the stored bytes of the
transaction and stores them again unchanged. -/
theorem Start_stores_raw_prefix (env : Env) (fuel : Nat) (m : Message) (f : Handler)
    (s : State) (mp : TMap)
    (env2 : Env) (fuel2 : Nat) (e : Event) (s2 : State) (mp2 : TMap) (t2 : clientTransaction)
    (hinit : checkInit s.client = error.nil) (hopen : s.client.closed = false)
    (hmap : s.client.t = some mp) (hfresh : mp m.TransactionID = none)
    (hstart : env.agentStart (s.trace ++ [Action.clockNow (env.now s.trace)])
        m.TransactionID (env.now s.trace) = error.nil)
    (hwrite : env.write (s.trace ++ [Action.clockNow (env.now s.trace),
        Action.agentStart m.TransactionID (env.now s.trace) error.nil]) m.Raw = error.nil)
    (hmap2 : s2.client.t = some mp2) (hsome2 : mp2 e.TransactionID = some t2)
    (hbudget2 : ¬ s2.client.maxAttempts < t2.attempt) (herr2 : e.Error ≠ error.nil)
    (hopen2 : s2.client.closed = false)
    (hstart2 : env2.agentStart (s2.trace ++ [Action.clockNow (env2.now s2.trace)]) t2.id
        (env2.now s2.trace + wrapInt64 (wrapInt32 (t2.attempt + 1) * t2.rto)) = error.nil)
    (hwrite2 : env2.write (s2.trace ++ [Action.clockNow (env2.now s2.trace),
        Action.agentStart t2.id
          (env2.now s2.trace + wrapInt64 (wrapInt32 (t2.attempt + 1) * t2.rto)) error.nil])
        t2.raw = error.nil) :
    (∃ (s1 : State) (mp1 : TMap) (t : clientTransaction),
      Start env fuel m (some f) s = Outcome.ret error.nil s1 ∧
      s1.client.t = some mp1 ∧ mp1 m.TransactionID = some t ∧
      t.raw = m.Raw.take 1500 ∧
      t.raw.length = min 1500 m.Raw.length ∧
      (m.Raw.length ≤ 1500 → t.raw = m.Raw) ∧
      writesOf s1.trace = writesOf s.trace ++ [m.Raw]) ∧
    (∃ (s3 : State) (mp3 : TMap) (t3 : clientTransaction),
      handleAgentCallback env2 (fuel2 + 1) e s2 = Outcome.ret () s3 ∧
      writesOf s3.trace = writesOf s2.trace ++ [t2.raw] ∧
      s3.client.t = some mp3 ∧ mp3 t2.id = some t3 ∧ t3.raw = t2.raw) := by
  constructor
  · refine ⟨_, _,
      { id := m.TransactionID, start := env.now s.trace, rto := s.client.rto,
        attempt := 0, h := some f, raw := m.Raw.take 1500 },
      Start_registers env fuel m f s mp hinit hopen hmap hfresh hstart hwrite,
      rfl, ?_, rfl, ?_, ?_, ?_⟩
    · simp [TMap.insert]
    · simp [List.length_take]
    · intro hlen; exact List.take_of_length_le hlen
    · simp [writesOf_append, writesOf]
  · refine ⟨_, _, { t2 with attempt := wrapInt32 (t2.attempt + 1) },
      handleAgentCallback_retry_ok env2 fuel2 e s2 mp2 t2 hmap2 hsome2 hbudget2
        herr2 hopen2 hstart2 hwrite2, ?_, rfl, ?_, rfl⟩
    · simp [writesOf_append, writesOf]
    · simp [TMap.insert]

/-- The statement of `Start_stores_raw_prefix` for `msgA` on a fresh client and its
first retransmission. -/
theorem Start_stores_raw_prefix_example :
    (∃ (s1 : State) (mp1 : TMap) (t : clientTransaction),
      Start quietEnv 0 msgA (some 7) (newState 3 500) = Outcome.ret error.nil s1 ∧
      s1.client.t = some mp1 ∧ mp1 msgA.TransactionID = some t ∧
      t.raw = msgA.Raw.take 1500 ∧
      t.raw.length = min 1500 msgA.Raw.length ∧
      (msgA.Raw.length ≤ 1500 → t.raw = msgA.Raw) ∧
      writesOf s1.trace = writesOf (newState 3 500).trace ++ [msgA.Raw]) ∧
    (∃ (s3 : State) (mp3 : TMap) (t3 : clientTransaction),
      handleAgentCallback quietEnv (0 + 1) (timeoutEvent idA) (pendingState 3 0 false)
        = Outcome.ret () s3 ∧
      writesOf s3.trace = writesOf (pendingState 3 0 false).trace ++ [(txA 0).raw] ∧
      s3.client.t = some mp3 ∧ mp3 (txA 0).id = some t3 ∧ t3.raw = (txA 0).raw) :=
  Start_stores_raw_prefix quietEnv 0 msgA 7 (newState 3 500) (fun _ => none)
    quietEnv 0 (timeoutEvent idA) (pendingState 3 0 false)
    (TMap.insert (fun _ => none) idA (txA 0)) (txA 0)
    (by decide) (by decide) rfl rfl rfl rfl rfl (by decide) (by decide) (by decide) rfl rfl rfl

/-! ## `SetRTO` -/

/-- C9: a transaction registered by `Start` while the RTO of the client is `r` stores
`r`; a later `SetRTO` leaves the map, and so the stored value, unchanged, and
every later run of the agent callback gives the same trace (the same
`Agent.Start` deadlines) and the same map as without the `SetRTO`; a `Start`
made after `SetRTO r2` stores `r2`. -/
theorem SetRTO_spares_in_flight (env : Env) (fuel : Nat) (m : Message) (f : Handler)
    (s : State) (mp : TMap) (r2 : Int) (env2 : Env) (fuel2 : Nat) (evs : List Event)
    (hinit : checkInit s.client = error.nil) (hopen : s.client.closed = false)
    (hmap : s.client.t = some mp) (hfresh : mp m.TransactionID = none)
    (hstart : env.agentStart (s.trace ++ [Action.clockNow (env.now s.trace)])
        m.TransactionID (env.now s.trace) = error.nil)
    (hwrite : env.write (s.trace ++ [Action.clockNow (env.now s.trace),
        Action.agentStart m.TransactionID (env.now s.trace) error.nil]) m.Raw = error.nil) :
    (∃ (s1 : State) (mp1 : TMap) (t : clientTransaction),
      Start env fuel m (some f) s = Outcome.ret error.nil s1 ∧
      s1.client.t = some mp1 ∧ mp1 m.TransactionID = some t ∧ t.rto = s.client.rto ∧
      (SetRTO r2 s1).client.rto = r2 ∧
      (SetRTO r2 s1).client.t = some mp1 ∧
      (SetRTO r2 s1).trace = s1.trace ∧
      deliver (handleAgentCallback env2 fuel2) evs (SetRTO r2 s1)
        = (deliver (handleAgentCallback env2 fuel2) evs s1).mapState (SetRTO r2)) ∧
    (∃ (s1 : State) (mp1 : TMap) (t : clientTransaction),
      Start env fuel m (some f) (SetRTO r2 s) = Outcome.ret error.nil s1 ∧
      s1.client.t = some mp1 ∧ mp1 m.TransactionID = some t ∧ t.rto = r2) := by
  constructor
  · refine ⟨_, _,
      { id := m.TransactionID, start := env.now s.trace, rto := s.client.rto,
        attempt := 0, h := some f, raw := m.Raw.take 1500 },
      Start_registers env fuel m f s mp hinit hopen hmap hfresh hstart hwrite,
      rfl, ?_, rfl, rfl, rfl, rfl, ?_⟩
    · simp [TMap.insert]
    · exact SetRTO_deliver r2 _ (SetRTO_handleAgentCallback env2 r2 fuel2) evs _
  · refine ⟨_, _,
      { id := m.TransactionID, start := env.now s.trace, rto := r2,
        attempt := 0, h := some f, raw := m.Raw.take 1500 },
      Start_registers env fuel m f (SetRTO r2 s) mp hinit hopen hmap hfresh
        hstart hwrite, rfl, ?_, rfl⟩
    simp [TMap.insert, SetRTO]

/-- C9 at a concrete input: RTO 500 at `Start`, `SetRTO 900`, then a timeout. -/
theorem SetRTO_spares_in_flight_witness :
    (∃ (s1 : State) (mp1 : TMap) (t : clientTransaction),
      Start quietEnv 1 msgA (some 7) (newState 3 500) = Outcome.ret error.nil s1 ∧
      s1.client.t = some mp1 ∧ mp1 msgA.TransactionID = some t ∧
      t.rto = (newState 3 500).client.rto ∧
      (SetRTO 900 s1).client.rto = 900 ∧
      (SetRTO 900 s1).client.t = some mp1 ∧
      (SetRTO 900 s1).trace = s1.trace ∧
      deliver (handleAgentCallback quietEnv 1) [timeoutEvent idA] (SetRTO 900 s1)
        = (deliver (handleAgentCallback quietEnv 1) [timeoutEvent idA] s1).mapState
            (SetRTO 900)) ∧
    (∃ (s1 : State) (mp1 : TMap) (t : clientTransaction),
      Start quietEnv 1 msgA (some 7) (SetRTO 900 (newState 3 500)) = Outcome.ret error.nil s1 ∧
      s1.client.t = some mp1 ∧ mp1 msgA.TransactionID = some t ∧ t.rto = 900) :=
  SetRTO_spares_in_flight quietEnv 1 msgA 7 (newState 3 500) (fun _ => none) 900 quietEnv 1
    [timeoutEvent idA] (by decide) (by decide) rfl rfl rfl rfl

/-! ## The code at the inputs where it leaves the specification -/

/-- C2 at `attempt = maxAttempts = 3` with a timeout on an open client whose
agent and connection do not fail: the attempt count has reached `maxAttempts`,
yet the handler is not called; the transaction is retransmitted and stays in
the map with attempt count 4. -/
theorem timeout_at_budget_retransmits :
    ∃ s1 : State,
      handleAgentCallback quietEnv 1 (timeoutEvent idA) (pendingState 3 3 false)
        = Outcome.ret () s1 ∧
      (pendingState 3 3 false).client.maxAttempts = 3 ∧
      storedAttempt idA (pendingState 3 3 false) = some 3 ∧
      handlerCalls s1.trace = [] ∧
      writesOf s1.trace = [msgA.Raw] ∧
      agentStarts s1.trace = [(idA, 1000 + 4 * 500)] ∧
      pending idA s1 = true ∧
      storedAttempt idA s1 = some 4 := by
  refine ⟨_, rfl, ?_, ?_, ?_, ?_, ?_, ?_, ?_⟩ <;> decide

/-- C3 at RTO 500 and clock reading 1000: the deadline `Start` passes to
`Agent.Start` is 1000, the start time itself, not 1500. -/
theorem Start_first_deadline_is_start :
    ∃ s1 : State,
      Start quietEnv 0 msgA (some 7) (newState 3 500) = Outcome.ret error.nil s1 ∧
      quietEnv.now (newState 3 500).trace = 1000 ∧
      (newState 3 500).client.rto = 500 ∧
      agentStarts s1.trace = [(idA, 1000)] := by
  refine ⟨_, rfl, ?_, ?_, ?_⟩ <;> decide

/-! ## Terminal or retransmitted -/

/-- A timeout with budget remaining (attempt 1 of 3) on an open client whose
connection write fails: the handler is called once, with the write error, and
the transaction is gone from the map. -/
theorem timeout_with_budget_can_reach_handler :
    ∃ s1 : State,
      handleAgentCallback brokenPipeEnv 2 (timeoutEvent idA) (pendingState 3 1 false)
        = Outcome.ret () s1 ∧
      (timeoutEvent idA).Error = error.ErrTransactionTimeOut ∧
      storedAttempt idA (pendingState 3 1 false) = some 1 ∧
      (pendingState 3 1 false).client.maxAttempts = 3 ∧
      handlerCalls s1.trace = [(7, { TransactionID := idA, Error := error.other 1 })] ∧
      pending idA s1 = false := by
  refine ⟨_, rfl, ?_, ?_, ?_, ?_, ?_⟩ <;> decide

/-- What the callback does with an event for a registered transaction `t` on an
open client whose agent and connection do not fail: it removes `t` and hands
the event to the handler, with nothing else done, exactly when the event is a
success or `maxAttempts < t.attempt`; in the other case, `t.attempt =
maxAttempts` included, the handler is not called and the transaction is
retransmitted: re-inserted with `attempt + 1`, registered with the agent again
and its raw bytes written once. -/
theorem handleAgentCallback_terminal_or_retry (env : Env) (fuel : Nat) (e : Event)
    (s : State) (m : TMap) (t : clientTransaction) (f : Handler)
    (hmap : s.client.t = some m) (hsome : m e.TransactionID = some t)
    (hid : t.id = e.TransactionID) (hh : t.h = some f)
    (hopen : s.client.closed = false)
    (hw : ∀ tr b, env.write tr b = error.nil)
    (ha : ∀ tr i d, env.agentStart tr i d = error.nil) :
    ∃ s1 : State,
      handleAgentCallback env (fuel + 1) e s = Outcome.ret () s1 ∧
      ((pending e.TransactionID s1 = false ∧ s1.trace = s.trace ++ [Action.handle f e]) ↔
        (e.Error = error.nil ∨ s.client.maxAttempts < t.attempt)) ∧
      (¬ (e.Error = error.nil ∨ s.client.maxAttempts < t.attempt) →
        handlerCalls s1.trace = handlerCalls s.trace ∧
        s1.client.t = some ((m.erase e.TransactionID).insert e.TransactionID
          { t with attempt := wrapInt32 (t.attempt + 1) }) ∧
        agentStarts s1.trace = agentStarts s.trace ++
          [(e.TransactionID,
            env.now s.trace + wrapInt64 (wrapInt32 (t.attempt + 1) * t.rto))] ∧
        writesOf s1.trace = writesOf s.trace ++ [t.raw]) := by
  by_cases hterm : s.client.maxAttempts < t.attempt ∨ e.Error = error.nil
  · have hrhs : e.Error = error.nil ∨ s.client.maxAttempts < t.attempt := hterm.symm
    refine ⟨(s.setMap (m.erase t.id)).log (Action.handle f e), ?_, ?_, ?_⟩
    · rw [handleAgentCallback_terminal env fuel e s m t hmap hsome hterm, hh]
      rfl
    · constructor
      · intro _; exact hrhs
      · intro _
        exact ⟨by simp [pending, State.log, State.setMap, TMap.erase, hid], rfl⟩
    · intro hc; exact absurd hrhs hc
  · have hbudget : ¬ s.client.maxAttempts < t.attempt := fun h => hterm (Or.inl h)
    have herr : e.Error ≠ error.nil := fun h => hterm (Or.inr h)
    refine ⟨_, handleAgentCallback_retry_ok env fuel e s m t hmap hsome hbudget herr hopen
      (ha _ _ _) (hw _ _), ?_, ?_⟩
    · constructor
      · intro h
        have hlen := congrArg List.length h.2
        simp at hlen
      · intro h
        exact absurd h.symm hterm
    · intro _
      refine ⟨?_, ?_, ?_, ?_⟩
      · simp [handlerCalls_append, handlerCalls]
      · simp [hid]
      · simp [agentStarts_append, agentStarts, hid]
      · simp [writesOf_append, writesOf]

/-- The statement of `handleAgentCallback_terminal_or_retry` for a timeout for
`txA` at the boundary, attempt 3 of 3. -/
theorem handleAgentCallback_terminal_or_retry_example :
    ∃ s1 : State,
      handleAgentCallback quietEnv (0 + 1) (timeoutEvent idA) (pendingState 3 3 false)
        = Outcome.ret () s1 ∧
      ((pending (timeoutEvent idA).TransactionID s1 = false ∧
          s1.trace = (pendingState 3 3 false).trace
            ++ [Action.handle 7 (timeoutEvent idA)]) ↔
        ((timeoutEvent idA).Error = error.nil ∨
          (pendingState 3 3 false).client.maxAttempts < (txA 3).attempt)) ∧
      (¬ ((timeoutEvent idA).Error = error.nil ∨
          (pendingState 3 3 false).client.maxAttempts < (txA 3).attempt) →
        handlerCalls s1.trace = handlerCalls (pendingState 3 3 false).trace ∧
        s1.client.t = some (((TMap.insert (fun _ => none) idA (txA 3)).erase
            (timeoutEvent idA).TransactionID).insert (timeoutEvent idA).TransactionID
          { txA 3 with attempt := wrapInt32 ((txA 3).attempt + 1) }) ∧
        agentStarts s1.trace = agentStarts (pendingState 3 3 false).trace ++
          [((timeoutEvent idA).TransactionID,
            quietEnv.now (pendingState 3 3 false).trace
              + wrapInt64 (wrapInt32 ((txA 3).attempt + 1) * (txA 3).rto))] ∧
        writesOf s1.trace = writesOf (pendingState 3 3 false).trace ++ [(txA 3).raw]) :=
  handleAgentCallback_terminal_or_retry quietEnv 0 (timeoutEvent idA) (pendingState 3 3 false)
    (TMap.insert (fun _ => none) idA (txA 3)) (txA 3) 7 rfl (by decide) rfl rfl rfl
    (fun _ _ => rfl) (fun _ _ _ => rfl)

/-! ## The first `Close` -/

theorem handlersSet_setMap_erase (s : State) (m : TMap) (id : transactionID)
    (hmap : s.client.t = some m) (hh : handlersSet s) :
    handlersSet (s.setMap (m.erase id)) := by
  intro m1 hm1 k t hk
  simp only [State.setMap, Option.some.injEq] at hm1
  subst hm1
  simp only [TMap.erase] at hk
  split at hk
  · cases hk
  · exact hh m hmap k t hk

/-- On a closed client one event never leads to an agent or connection call: the
callback returns after at most one handler call. -/
theorem closed_callback_returns (env : Env) (fuel : Nat) (e : Event) (s : State)
    (hclosed : s.client.closed = true) (hh : handlersSet s) :
    ∃ s1 : State,
      handleAgentCallback env (fuel + 1) e s = Outcome.ret () s1 ∧
      s1.client.closed = true ∧ handlersSet s1 ∧
      closeCalls s1.trace = closeCalls s.trace := by
  cases hm : s.client.t with
  | none =>
    exact ⟨s, by simp [handleAgentCallback, hm], hclosed, hh, rfl⟩
  | some m =>
    cases hl : m e.TransactionID with
    | none =>
      exact ⟨_, handleAgentCallback_not_found env fuel e s m hm hl, hclosed,
        handlersSet_setMap_erase s m _ hm hh, rfl⟩
    | some t =>
      obtain ⟨f, hf⟩ : ∃ f, t.h = some f := Option.ne_none_iff_exists'.mp (hh m hm _ t hl)
      have hset := handlersSet_setMap_erase s m t.id hm hh
      by_cases hterm : s.client.maxAttempts < t.attempt ∨ e.Error = error.nil
      · refine ⟨(s.setMap (m.erase t.id)).log (Action.handle f e), ?_, hclosed, ?_, ?_⟩
        · rw [handleAgentCallback_terminal env fuel e s m t hm hl hterm, hf]; rfl
        · exact hset
        · simp [State.log, State.setMap, closeCalls_append, closeCalls]
      · refine ⟨(s.setMap (m.erase t.id)).log
          (Action.handle f { e with Error := error.ErrAgentClosed }), ?_, hclosed, ?_, ?_⟩
        · rw [handleAgentCallback_retry_closed env fuel e s m t hm hl
            (fun h => hterm (Or.inl h)) (fun h => hterm (Or.inr h)) hclosed, hf]
          rfl
        · exact hset
        · simp [State.log, State.setMap, closeCalls_append, closeCalls]

theorem closed_deliver_returns (env : Env) (fuel : Nat) :
    ∀ (evs : List Event) (s : State), s.client.closed = true → handlersSet s →
      ∃ s1 : State,
        deliver (handleAgentCallback env (fuel + 1)) evs s = Outcome.ret () s1 ∧
        s1.client.closed = true ∧ closeCalls s1.trace = closeCalls s.trace := by
  intro evs
  induction evs with
  | nil => intro s hc _; exact ⟨s, rfl, hc, rfl⟩
  | cons e es ih =>
    intro s hc hh
    obtain ⟨s1, h1, h2, h3, h4⟩ := closed_callback_returns env fuel e s hc hh
    obtain ⟨s2, k1, k2, k3⟩ := ih s1 h2 h3
    refine ⟨s2, ?_, k2, k3.trans h4⟩
    simp only [deliver, h1]
    exact k1

/-- C11: the first `Close` on an initialized, open client calls the agent's
`Close` and the connection's `Close` exactly once each, whatever either
returns; it returns nil exactly when both returned nil and otherwise
`CloseErr{AgentErr: a, ConnectionErr: c}` with the two returned errors. -/
theorem first_Close_closes_both (env : Env) (fuel : Nat) (s : State)
    (hinit : checkInit s.client = error.nil) (hopen : s.client.closed = false)
    (hh : handlersSet s) :
    ∃ (s1 s3 : State) (a c r : error),
      Close env (fuel + 1) s = Outcome.ret r s1 ∧
      a = (env.agentClose s.trace).2 ∧
      c = env.connClose s3.trace ∧
      s1.trace = s3.trace ++ [Action.connClose c] ∧
      closeCalls s3.trace = ((closeCalls s.trace).1 + 1, (closeCalls s.trace).2) ∧
      closeCalls s1.trace = ((closeCalls s.trace).1 + 1, (closeCalls s.trace).2 + 1) ∧
      s1.client.closed = true ∧
      (r = error.nil ↔ a = error.nil ∧ c = error.nil) ∧
      (¬ (a = error.nil ∧ c = error.nil) → r = error.CloseErr a c) := by
  obtain ⟨s3, h1, h2, h3⟩ := closed_deliver_returns env fuel (env.agentClose s.trace).1
    (({ s with client := { s.client with closed := true } } : State).log
      (Action.agentClose (env.agentClose s.trace).2)) rfl
    (by intro m hm k t hk; exact hh m hm k t hk)
  have hc3 : closeCalls s3.trace = ((closeCalls s.trace).1 + 1, (closeCalls s.trace).2) := by
    rw [h3]; simp [State.log, closeCalls_append, closeCalls]
  have hC : Close env (fuel + 1) s
      = (if (env.agentClose s.trace).2 = error.nil ∧ env.connClose s3.trace = error.nil then
          Outcome.ret error.nil (s3.log (Action.connClose (env.connClose s3.trace)))
        else
          Outcome.ret (error.CloseErr (env.agentClose s.trace).2 (env.connClose s3.trace))
            (s3.log (Action.connClose (env.connClose s3.trace)))) := by
    unfold Close
    rw [if_neg (by simp [hinit]), if_neg (by simp [hopen])]
    simp only []
    rw [h1]
  by_cases hboth : (env.agentClose s.trace).2 = error.nil ∧ env.connClose s3.trace = error.nil
  · refine ⟨s3.log (Action.connClose (env.connClose s3.trace)), s3, _, _, error.nil,
      ?_, rfl, rfl, rfl, hc3, ?_, h2, ?_, ?_⟩
    · rw [hC, if_pos hboth]
    · simp [State.log, closeCalls_append, closeCalls, hc3]
    · simp [hboth]
    · intro h; exact absurd hboth h
  · refine ⟨s3.log (Action.connClose (env.connClose s3.trace)), s3, _, _,
      error.CloseErr (env.agentClose s.trace).2 (env.connClose s3.trace),
      ?_, rfl, rfl, rfl, hc3, ?_, h2, ?_, ?_⟩
    · rw [hC, if_neg hboth]
    · simp [State.log, closeCalls_append, closeCalls, hc3]
    · simp [hboth]
    · intro _; rfl

/-- C11 at a concrete input: a pending transaction, an agent whose `Close` fails. -/
theorem first_Close_closes_both_witness :
    ∃ (s1 s3 : State) (a c r : error),
      Close failingCloseEnv (0 + 1) (pendingState 3 1 false) = Outcome.ret r s1 ∧
      a = (failingCloseEnv.agentClose (pendingState 3 1 false).trace).2 ∧
      c = failingCloseEnv.connClose s3.trace ∧
      s1.trace = s3.trace ++ [Action.connClose c] ∧
      closeCalls s3.trace = ((closeCalls (pendingState 3 1 false).trace).1 + 1,
        (closeCalls (pendingState 3 1 false).trace).2) ∧
      closeCalls s1.trace = ((closeCalls (pendingState 3 1 false).trace).1 + 1,
        (closeCalls (pendingState 3 1 false).trace).2 + 1) ∧
      s1.client.closed = true ∧
      (r = error.nil ↔ a = error.nil ∧ c = error.nil) ∧
      (¬ (a = error.nil ∧ c = error.nil) → r = error.CloseErr a c) :=
  first_Close_closes_both failingCloseEnv 0 (pendingState 3 1 false) (by decide) rfl
    (by
      intro m hm k t hk
      simp only [pendingState, Option.some.injEq] at hm
      subst hm
      simp only [TMap.insert] at hk
      split at hk
      · cases hk; simp [txA]
      · cases hk)

/-! ## Failures on the retry path -/

theorem handleAgentCallback_retry_agent_fails (env : Env) (fuel : Nat) (e : Event)
    (s : State) (m : TMap) (t : clientTransaction) (aerr : error)
    (hmap : s.client.t = some m) (hsome : m e.TransactionID = some t)
    (hbudget : ¬ s.client.maxAttempts < t.attempt) (herr : e.Error ≠ error.nil)
    (hopen : s.client.closed = false)
    (hstart : env.agentStart (s.trace ++ [Action.clockNow (env.now s.trace)]) t.id
        (env.now s.trace + wrapInt64 (wrapInt32 (t.attempt + 1) * t.rto)) = aerr)
    (hfail : aerr ≠ error.nil) :
    handleAgentCallback env (fuel + 1) e s
      = callHandler t.h { e with Error := aerr }
          { client := { s.client with
              t := some (((m.erase t.id).insert t.id
                { t with attempt := wrapInt32 (t.attempt + 1) }).erase t.id) }
            trace := s.trace ++ [Action.clockNow (env.now s.trace),
              Action.agentStart t.id
                (env.now s.trace + wrapInt64 (wrapInt32 (t.attempt + 1) * t.rto)) aerr] } := by
  simp [handleAgentCallback, hmap, hsome, State.setMap, hbudget, herr, start, hopen,
    TMap.erase, State.log, clientTransaction.nextTimeout, hstart, hfail, delete]

theorem handleAgentCallback_retry_write_fails (env : Env) (fuel : Nat) (e : Event)
    (s : State) (m : TMap) (t : clientTransaction) (f : Handler) (w sErr : error)
    (evs : List Event)
    (hmap : s.client.t = some m) (hsome : m e.TransactionID = some t)
    (hh : t.h = some f)
    (hbudget : ¬ s.client.maxAttempts < t.attempt) (herr : e.Error ≠ error.nil)
    (hopen : s.client.closed = false)
    (hstart : env.agentStart (s.trace ++ [Action.clockNow (env.now s.trace)]) t.id
        (env.now s.trace + wrapInt64 (wrapInt32 (t.attempt + 1) * t.rto)) = error.nil)
    (hwrite : env.write (s.trace ++ [Action.clockNow (env.now s.trace),
        Action.agentStart t.id
          (env.now s.trace + wrapInt64 (wrapInt32 (t.attempt + 1) * t.rto)) error.nil])
        t.raw = w)
    (hw : w ≠ error.nil)
    (hstop : env.agentStop (s.trace ++ [Action.clockNow (env.now s.trace),
        Action.agentStart t.id
          (env.now s.trace + wrapInt64 (wrapInt32 (t.attempt + 1) * t.rto)) error.nil,
        Action.connWrite t.raw w]) t.id = (evs, sErr))
    (hevs : ∀ x ∈ evs, x.TransactionID = t.id) :
    ∃ (s1 : State) (mp1 : TMap),
      handleAgentCallback env (fuel + 2) e s = Outcome.ret () s1 ∧
      s1.client.t = some mp1 ∧ mp1 t.id = none ∧
      s1.trace = s.trace ++ [Action.clockNow (env.now s.trace),
        Action.agentStart t.id
          (env.now s.trace + wrapInt64 (wrapInt32 (t.attempt + 1) * t.rto)) error.nil,
        Action.connWrite t.raw w, Action.agentStop t.id sErr,
        Action.handle f
          { e with Error := if sErr = error.nil then w else error.StopErr sErr w }] := by
  obtain ⟨s8, mp8, h1, h2, h3, h4⟩ := deliver_unknown_id env fuel t.id evs
    { client := { s.client with
        t := some (((m.erase t.id).insert t.id
          { t with attempt := wrapInt32 (t.attempt + 1) }).erase t.id) }
      trace := s.trace ++ [Action.clockNow (env.now s.trace),
        Action.agentStart t.id
          (env.now s.trace + wrapInt64 (wrapInt32 (t.attempt + 1) * t.rto)) error.nil,
        Action.connWrite t.raw w, Action.agentStop t.id sErr] }
    _ rfl (by simp [TMap.erase]) hevs
  have hS : handleAgentCallback env (fuel + 2) e s
      = (match deliver (handleAgentCallback env (fuel + 1)) evs
          { client := { s.client with
              t := some (((m.erase t.id).insert t.id
                { t with attempt := wrapInt32 (t.attempt + 1) }).erase t.id) }
            trace := s.trace ++ [Action.clockNow (env.now s.trace),
              Action.agentStart t.id
                (env.now s.trace + wrapInt64 (wrapInt32 (t.attempt + 1) * t.rto)) error.nil,
              Action.connWrite t.raw w, Action.agentStop t.id sErr] } with
        | Outcome.panic s9 => Outcome.panic s9
        | Outcome.outOfFuel => Outcome.outOfFuel
        | Outcome.ret _ s9 =>
          if sErr ≠ error.nil then
            callHandler t.h { e with Error := error.StopErr sErr w } s9
          else callHandler t.h { e with Error := w } s9) := by
    simp [handleAgentCallback, hmap, hsome, State.setMap, hbudget, herr, start, hopen,
      TMap.erase, State.log, clientTransaction.nextTimeout, hstart, hwrite, hw, delete, hstop]
  refine ⟨s8.log (Action.handle f
      { e with Error := if sErr = error.nil then w else error.StopErr sErr w }), mp8, ?_, h3, h4, ?_⟩
  · rw [hS, h1]
    by_cases hs : sErr = error.nil <;> simp [hs, hh, callHandler]
  · simp [State.log, h2]

/-! ## One retransmission -/

/-- C16: for an error event (a timeout) for a registered transaction `t` with
budget remaining on an open client, when `Agent.Start` succeeds: `t` is
re-inserted with `attempt + 1` and every other field unchanged, `Agent.Start`
is called once with deadline `now + attempt1 * t.rto` (`attempt1` the
incremented count, the product taken in `int64`), and `t.raw` is written to
the connection exactly once; when the write succeeds too, the re-inserted
transaction is what the map holds afterwards and no handler has run. -/
theorem retransmission_step (env : Env) (fuel : Nat) (e : Event) (s : State) (m : TMap)
    (t : clientTransaction) (f : Handler) (w sErr : error) (evs : List Event)
    (hmap : s.client.t = some m) (hsome : m e.TransactionID = some t)
    (hh : t.h = some f) (herr : e.Error ≠ error.nil)
    (hlt : t.attempt < s.client.maxAttempts)
    (hatt : inInt32 t.attempt) (hmax : inInt32 s.client.maxAttempts)
    (hopen : s.client.closed = false)
    (hstart : env.agentStart (s.trace ++ [Action.clockNow (env.now s.trace)]) t.id
        (env.now s.trace + wrapInt64 ((t.attempt + 1) * t.rto)) = error.nil)
    (hwrite : env.write (s.trace ++ [Action.clockNow (env.now s.trace),
        Action.agentStart t.id
          (env.now s.trace + wrapInt64 ((t.attempt + 1) * t.rto)) error.nil])
        t.raw = w)
    (hstop : env.agentStop (s.trace ++ [Action.clockNow (env.now s.trace),
        Action.agentStart t.id
          (env.now s.trace + wrapInt64 ((t.attempt + 1) * t.rto)) error.nil,
        Action.connWrite t.raw w]) t.id = (evs, sErr))
    (hevs : w ≠ error.nil → ∀ x ∈ evs, x.TransactionID = t.id) :
    start { t with attempt := t.attempt + 1 } (s.setMap (m.erase t.id))
      = Outcome.ret error.nil ((s.setMap (m.erase t.id)).setMap
          ((m.erase t.id).insert t.id { t with attempt := t.attempt + 1 })) ∧
    (∃ s1 : State,
      handleAgentCallback env (fuel + 2) e s = Outcome.ret () s1 ∧
      agentStarts s1.trace = agentStarts s.trace ++
        [(t.id, env.now s.trace + wrapInt64 ((t.attempt + 1) * t.rto))] ∧
      writesOf s1.trace = writesOf s.trace ++ [t.raw] ∧
      (w = error.nil →
        s1.client.t = some ((m.erase t.id).insert t.id { t with attempt := t.attempt + 1 }) ∧
        handlerCalls s1.trace = handlerCalls s.trace)) ∧
    (inInt64 ((t.attempt + 1) * t.rto) →
      env.now s.trace + wrapInt64 ((t.attempt + 1) * t.rto)
        = env.now s.trace + (t.attempt + 1) * t.rto) := by
  have hwrap : wrapInt32 (t.attempt + 1) = t.attempt + 1 := by
    apply wrapInt32_of_inInt32
    unfold inInt32 at *
    omega
  have hbudget : ¬ s.client.maxAttempts < t.attempt := not_lt.mpr (le_of_lt hlt)
  refine ⟨?_, ?_, ?_⟩
  · simp [start, State.setMap, hopen, TMap.erase]
  · by_cases hw : w = error.nil
    · subst hw
      have hstep := handleAgentCallback_retry_ok env (fuel + 1) e s m t hmap hsome hbudget herr
        hopen (by rw [hwrap]; exact hstart) (by rw [hwrap]; exact hwrite)
      rw [hwrap] at hstep
      refine ⟨_, hstep, ?_, ?_, ?_⟩
      · simp [agentStarts_append, agentStarts]
      · simp [writesOf_append, writesOf]
      · intro _
        exact ⟨rfl, by simp [handlerCalls_append, handlerCalls]⟩
    · obtain ⟨s1, mp1, h1, _, _, h4⟩ := handleAgentCallback_retry_write_fails env fuel e s m t
        f w sErr evs hmap hsome hh hbudget herr hopen (by rw [hwrap]; exact hstart)
        (by rw [hwrap]; exact hwrite) hw (by rw [hwrap]; exact hstop) (hevs hw)
      rw [hwrap] at h4
      refine ⟨s1, h1, ?_, ?_, ?_⟩
      · rw [h4]; simp [agentStarts_append, agentStarts]
      · rw [h4]; simp [writesOf_append, writesOf]
      · intro h; exact absurd h hw
  · intro h
    rw [wrapInt64_of_inInt64 _ h]

/-- C16 at a concrete input: `txA` at attempt 1 of 3, RTO 500, timeout. -/
theorem retransmission_step_witness :
    start { txA 1 with attempt := (txA 1).attempt + 1 }
        ((pendingState 3 1 false).setMap
          ((TMap.insert (fun _ => none) idA (txA 1)).erase (txA 1).id))
      = Outcome.ret error.nil
          (((pendingState 3 1 false).setMap
            ((TMap.insert (fun _ => none) idA (txA 1)).erase (txA 1).id)).setMap
            (((TMap.insert (fun _ => none) idA (txA 1)).erase (txA 1).id).insert (txA 1).id
              { txA 1 with attempt := (txA 1).attempt + 1 })) ∧
    (∃ s1 : State,
      handleAgentCallback quietEnv (0 + 2) (timeoutEvent idA) (pendingState 3 1 false)
        = Outcome.ret () s1 ∧
      agentStarts s1.trace = agentStarts (pendingState 3 1 false).trace ++
        [((txA 1).id, quietEnv.now (pendingState 3 1 false).trace
          + wrapInt64 (((txA 1).attempt + 1) * (txA 1).rto))] ∧
      writesOf s1.trace = writesOf (pendingState 3 1 false).trace ++ [(txA 1).raw] ∧
      (error.nil = error.nil →
        s1.client.t = some (((TMap.insert (fun _ => none) idA (txA 1)).erase (txA 1).id).insert
          (txA 1).id { txA 1 with attempt := (txA 1).attempt + 1 }) ∧
        handlerCalls s1.trace = handlerCalls (pendingState 3 1 false).trace)) ∧
    (inInt64 (((txA 1).attempt + 1) * (txA 1).rto) →
      quietEnv.now (pendingState 3 1 false).trace
          + wrapInt64 (((txA 1).attempt + 1) * (txA 1).rto)
        = quietEnv.now (pendingState 3 1 false).trace
          + ((txA 1).attempt + 1) * (txA 1).rto) :=
  retransmission_step quietEnv 0 (timeoutEvent idA) (pendingState 3 1 false)
    (TMap.insert (fun _ => none) idA (txA 1)) (txA 1) 7 error.nil error.nil []
    rfl (by decide) rfl (by decide) (by decide) (by decide) (by decide) rfl rfl rfl rfl
    (by intro h; exact absurd rfl h)

/-- C17: on the retry path (an error event for a registered transaction whose
budget is not used up) every internal failure reaches the handler exactly once
and leaves the transaction out of the client map: the handler gets
`ErrAgentClosed` when the client is closed, `err` when `Agent.Start` fails with
`err`, and, when the write fails with `w`, `w` itself if `Agent.Stop` succeeds
and `StopErr{Err: s, Cause: w}` if it fails with `s`; the callbacks `Agent.Stop`
makes for the stopped id add no handler call. -/
theorem retry_failure_reaches_handler_once (env : Env) (fuel : Nat) (e : Event) (s : State)
    (m : TMap) (t : clientTransaction) (f : Handler) (aerr w sErr : error)
    (evs : List Event)
    (hmap : s.client.t = some m) (hsome : m e.TransactionID = some t)
    (hid : t.id = e.TransactionID) (hh : t.h = some f)
    (hbudget : ¬ s.client.maxAttempts < t.attempt) (herr : e.Error ≠ error.nil)
    (hstart : env.agentStart (s.trace ++ [Action.clockNow (env.now s.trace)]) t.id
        (env.now s.trace + wrapInt64 (wrapInt32 (t.attempt + 1) * t.rto)) = aerr)
    (hwrite : env.write (s.trace ++ [Action.clockNow (env.now s.trace),
        Action.agentStart t.id
          (env.now s.trace + wrapInt64 (wrapInt32 (t.attempt + 1) * t.rto)) error.nil])
        t.raw = w)
    (hstop : env.agentStop (s.trace ++ [Action.clockNow (env.now s.trace),
        Action.agentStart t.id
          (env.now s.trace + wrapInt64 (wrapInt32 (t.attempt + 1) * t.rto)) error.nil,
        Action.connWrite t.raw w]) t.id = (evs, sErr))
    (hevs : ∀ x ∈ evs, x.TransactionID = t.id)
    (hfail : s.client.closed = true ∨ aerr ≠ error.nil ∨ w ≠ error.nil) :
    ∃ (s1 : State) (mp1 : TMap) (err : error),
      handleAgentCallback env (fuel + 2) e s = Outcome.ret () s1 ∧
      handlerCalls s1.trace = handlerCalls s.trace ++ [(f, { e with Error := err })] ∧
      s1.client.t = some mp1 ∧ mp1 e.TransactionID = none ∧
      (s.client.closed = true → err = error.ErrAgentClosed) ∧
      (s.client.closed = false → aerr ≠ error.nil → err = aerr) ∧
      (s.client.closed = false → aerr = error.nil → sErr = error.nil → err = w) ∧
      (s.client.closed = false → aerr = error.nil → sErr ≠ error.nil →
        err = error.StopErr sErr w) := by
  by_cases hclosed : s.client.closed = true
  · refine ⟨(s.setMap (m.erase t.id)).log
        (Action.handle f { e with Error := error.ErrAgentClosed }), m.erase t.id,
      error.ErrAgentClosed, ?_, ?_, rfl, ?_, ?_, ?_, ?_, ?_⟩
    · rw [handleAgentCallback_retry_closed env (fuel + 1) e s m t hmap hsome hbudget herr
        hclosed, hh]
      rfl
    · simp [State.log, State.setMap, handlerCalls_append, handlerCalls]
    · simp [TMap.erase, hid]
    · intro _; rfl
    · intro h; rw [hclosed] at h; cases h
    · intro h; rw [hclosed] at h; cases h
    · intro h; rw [hclosed] at h; cases h
  · have hopen : s.client.closed = false := by
      cases hc : s.client.closed
      · rfl
      · exact absurd hc hclosed
    by_cases ha : aerr = error.nil
    · subst ha
      have hw : w ≠ error.nil := by
        rcases hfail with h | h | h
        · exact absurd h hclosed
        · exact absurd rfl h
        · exact h
      obtain ⟨s1, mp1, h1, h2, h3, h4⟩ := handleAgentCallback_retry_write_fails env fuel e s m
        t f w sErr evs hmap hsome hh hbudget herr hopen hstart hwrite hw hstop hevs
      refine ⟨s1, mp1, if sErr = error.nil then w else error.StopErr sErr w, h1, ?_, h2,
        ?_, ?_, ?_, ?_, ?_⟩
      · rw [h4]; simp [handlerCalls_append, handlerCalls]
      · rw [← hid]; exact h3
      · intro h; exact absurd h hclosed
      · intro _ h; exact absurd rfl h
      · intro _ _ h; simp [h]
      · intro _ _ h; simp [h]
    · refine ⟨State.log
          { client := { s.client with
              t := some (((m.erase t.id).insert t.id
                { t with attempt := wrapInt32 (t.attempt + 1) }).erase t.id) }
            trace := s.trace ++ [Action.clockNow (env.now s.trace),
              Action.agentStart t.id
                (env.now s.trace + wrapInt64 (wrapInt32 (t.attempt + 1) * t.rto)) aerr] }
          (Action.handle f { e with Error := aerr }),
        ((m.erase t.id).insert t.id
          { t with attempt := wrapInt32 (t.attempt + 1) }).erase t.id,
        aerr, ?_, ?_, rfl, ?_, ?_, ?_, ?_, ?_⟩
      · rw [handleAgentCallback_retry_agent_fails env (fuel + 1) e s m t aerr hmap hsome
          hbudget herr hopen hstart ha, hh]
        rfl
      · simp [State.log, handlerCalls_append, handlerCalls]
      · simp [TMap.erase, hid]
      · intro h; exact absurd h hclosed
      · intro _ _; rfl
      · intro _ h; exact absurd h ha
      · intro _ h; exact absurd h ha

/-- C17 at a concrete input: the write fails and `Stop` calls back for the id. -/
theorem retry_failure_reaches_handler_once_witness :
    ∃ (s1 : State) (mp1 : TMap) (err : error),
      handleAgentCallback brokenPipeEnv (0 + 2) (timeoutEvent idA) (pendingState 3 1 false)
        = Outcome.ret () s1 ∧
      handlerCalls s1.trace = handlerCalls (pendingState 3 1 false).trace
        ++ [(7, { timeoutEvent idA with Error := err })] ∧
      s1.client.t = some mp1 ∧ mp1 (timeoutEvent idA).TransactionID = none ∧
      ((pendingState 3 1 false).client.closed = true → err = error.ErrAgentClosed) ∧
      ((pendingState 3 1 false).client.closed = false → error.nil ≠ error.nil →
        err = error.nil) ∧
      ((pendingState 3 1 false).client.closed = false → error.nil = error.nil →
        error.nil = error.nil → err = error.other 1) ∧
      ((pendingState 3 1 false).client.closed = false → error.nil = error.nil →
        error.nil ≠ error.nil → err = error.StopErr error.nil (error.other 1)) :=
  retry_failure_reaches_handler_once brokenPipeEnv 0 (timeoutEvent idA)
    (pendingState 3 1 false) (TMap.insert (fun _ => none) idA (txA 1)) (txA 1) 7
    error.nil (error.other 1) error.nil [stoppedEvent idA]
    rfl (by decide) rfl rfl (by decide) (by decide) rfl rfl rfl (by decide)
    (Or.inr (Or.inr (by decide)))

/-! ## Events for unknown ids, and failed starts -/

/-- C18 at a map holding a transaction under the all-zero id and an event for
another, unknown id: no handler runs and nothing is sent, but the all-zero
transaction is removed from the map. -/
theorem unknown_event_drops_zero_id :
    ∃ s1 : State,
      handleAgentCallback quietEnv 1 (timeoutEvent idA) zeroPendingState
        = Outcome.ret () s1 ∧
      pending idA zeroPendingState = false ∧
      pending zeroID zeroPendingState = true ∧
      pending zeroID s1 = false ∧
      s1.trace = [] := by
  refine ⟨_, rfl, ?_, ?_, ?_, ?_⟩ <;> decide

/-- C19 at an agent whose `Start` fails: `Client.Start` returns the error and
leaves the transaction in the map, so the next `Start` with the same id is
refused with `ErrTransactionExists`. -/
theorem failed_Start_leaves_transaction :
    ∃ s1 s2 : State,
      Start deafAgentEnv 1 msgA (some 7) (newState 3 500)
        = Outcome.ret error.ErrAgentClosed s1 ∧
      pending idA (newState 3 500) = false ∧
      pending idA s1 = true ∧
      Start deafAgentEnv 1 msgA (some 7) s1 = Outcome.ret error.ErrTransactionExists s2 := by
  refine ⟨_, _, rfl, ?_, ?_, rfl⟩ <;> decide

/-! ## Retransmission intervals -/

/-- C15 fails as stated: against a silent peer with RTO 500 the intervals between
registration and deadline are 0, 500, 1000, 1500, 2000; the one after 1000 is
1500, not 2000. -/
theorem silent_peer_intervals_are_linear :
    ∃ s2 : State,
      silentPeerRun quietEnv 1 5 msgA 7 (newState 3 500) = Outcome.ret error.nil s2 ∧
      intervalsOf s2.trace = [0, 500, 1000, 1500, 2000] ∧
      (1500 : Int) ≠ 2 * 1000 := by
  refine ⟨_, rfl, ?_, ?_⟩ <;> decide

/-- C15, as the code has it: for every two consecutive retransmissions of one
transaction with `rto > 0` (connection and agent not failing, no overflow),
the last pair before the budget ends included, the interval between
registering the later one with the agent and its deadline exceeds the interval
of the earlier one by exactly `rto`: the intervals grow linearly with the
attempt count. -/
theorem retransmission_interval_grows_by_rto (env : Env) (fuel : Nat) (e : Event)
    (s : State) (m : TMap) (t : clientTransaction)
    (hmap : s.client.t = some m) (hsome : m e.TransactionID = some t)
    (hid : t.id = e.TransactionID) (herr : e.Error ≠ error.nil)
    (hopen : s.client.closed = false)
    (hw : ∀ tr b, env.write tr b = error.nil)
    (ha : ∀ tr i d, env.agentStart tr i d = error.nil)
    (hatt : 0 ≤ t.attempt) (hle : t.attempt + 1 ≤ s.client.maxAttempts)
    (hfit32 : inInt32 (t.attempt + 2))
    (hrto : 0 < t.rto) (hfit : inInt64 ((t.attempt + 2) * t.rto)) :
    ∃ (s1 s2 : State) (now1 d1 now2 d2 : Time),
      handleAgentCallback env (fuel + 1) e s = Outcome.ret () s1 ∧
      handleAgentCallback env (fuel + 1) e s1 = Outcome.ret () s2 ∧
      s2.trace = s.trace ++ [Action.clockNow now1,
        Action.agentStart e.TransactionID d1 error.nil, Action.connWrite t.raw error.nil,
        Action.clockNow now2,
        Action.agentStart e.TransactionID d2 error.nil, Action.connWrite t.raw error.nil] ∧
      intervalsOf [Action.clockNow now1, Action.agentStart e.TransactionID d1 error.nil,
        Action.connWrite t.raw error.nil, Action.clockNow now2,
        Action.agentStart e.TransactionID d2 error.nil, Action.connWrite t.raw error.nil]
        = [d1 - now1, d2 - now2] ∧
      d2 - now2 = (d1 - now1) + t.rto := by
  have hw1 : wrapInt32 (t.attempt + 1) = t.attempt + 1 := by
    apply wrapInt32_of_inInt32; unfold inInt32 at *; omega
  have hw2 : wrapInt32 (t.attempt + 1 + 1) = t.attempt + 2 := by
    rw [wrapInt32_of_inInt32]
    · ring
    · unfold inInt32 at *; omega
  have hfit1 : inInt64 ((t.attempt + 1) * t.rto) := by
    unfold inInt64 at *
    constructor
    · have : 0 ≤ (t.attempt + 1) * t.rto := by positivity
      omega
    · have : (t.attempt + 1) * t.rto ≤ (t.attempt + 2) * t.rto := by nlinarith
      omega
  have hstep1 := handleAgentCallback_retry_ok env fuel e s m t hmap hsome
    (by omega) herr hopen (ha _ _ _) (hw _ _)
  rw [hw1] at hstep1
  have hstep2 := handleAgentCallback_retry_ok env fuel e
    { client := { s.client with
        t := some ((m.erase t.id).insert t.id { t with attempt := t.attempt + 1 }) }
      trace := s.trace ++ [Action.clockNow (env.now s.trace),
        Action.agentStart t.id (env.now s.trace + wrapInt64 ((t.attempt + 1) * t.rto)) error.nil,
        Action.connWrite t.raw error.nil] }
    ((m.erase t.id).insert t.id { t with attempt := t.attempt + 1 })
    { t with attempt := t.attempt + 1 } rfl (by simp [TMap.insert, hid])
    (by show ¬ s.client.maxAttempts < t.attempt + 1; omega) herr hopen (ha _ _ _) (hw _ _)
  simp only [hw2] at hstep2
  refine ⟨_, _, env.now s.trace,
    env.now s.trace + wrapInt64 ((t.attempt + 1) * t.rto),
    env.now (s.trace ++ [Action.clockNow (env.now s.trace),
      Action.agentStart t.id (env.now s.trace + wrapInt64 ((t.attempt + 1) * t.rto)) error.nil,
      Action.connWrite t.raw error.nil]),
    env.now (s.trace ++ [Action.clockNow (env.now s.trace),
      Action.agentStart t.id (env.now s.trace + wrapInt64 ((t.attempt + 1) * t.rto)) error.nil,
      Action.connWrite t.raw error.nil]) + wrapInt64 ((t.attempt + 2) * t.rto),
    hstep1, hstep2, ?_, ?_, ?_⟩
  · simp [hid]
  · simp [intervalsOf]
  · rw [wrapInt64_of_inInt64 _ hfit, wrapInt64_of_inInt64 _ hfit1]
    ring

/-- C15 at a concrete input: `txA` at attempt 2 with budget 3 and RTO 500, the last
pair of retransmissions, with intervals 1500 and 2000. -/
theorem retransmission_interval_grows_by_rto_witness :
    ∃ (s1 s2 : State) (now1 d1 now2 d2 : Time),
      handleAgentCallback quietEnv (0 + 1) (timeoutEvent idA) (pendingState 3 2 false)
        = Outcome.ret () s1 ∧
      handleAgentCallback quietEnv (0 + 1) (timeoutEvent idA) s1 = Outcome.ret () s2 ∧
      s2.trace = (pendingState 3 2 false).trace ++ [Action.clockNow now1,
        Action.agentStart (timeoutEvent idA).TransactionID d1 error.nil,
        Action.connWrite (txA 2).raw error.nil,
        Action.clockNow now2,
        Action.agentStart (timeoutEvent idA).TransactionID d2 error.nil,
        Action.connWrite (txA 2).raw error.nil] ∧
      intervalsOf [Action.clockNow now1,
        Action.agentStart (timeoutEvent idA).TransactionID d1 error.nil,
        Action.connWrite (txA 2).raw error.nil, Action.clockNow now2,
        Action.agentStart (timeoutEvent idA).TransactionID d2 error.nil,
        Action.connWrite (txA 2).raw error.nil]
        = [d1 - now1, d2 - now2] ∧
      d2 - now2 = (d1 - now1) + (txA 2).rto :=
  retransmission_interval_grows_by_rto quietEnv 0 (timeoutEvent idA) (pendingState 3 2 false)
    (TMap.insert (fun _ => none) idA (txA 2)) (txA 2) rfl (by decide) rfl (by decide) rfl
    (fun _ _ => rfl) (fun _ _ _ => rfl) (by decide) (by decide) (by decide) (by decide)
    (by decide)

/-! ## Codec: bytes and XOR -/

theorem readBE16_be16 (n : Nat) : readBE16 (byteOf (n / 256)) (byteOf n) = n % 65536 := by
  simp only [readBE16, byteOf]
  omega

theorem be32_magicCookie : be32 magicCookie = [0x21, 0x12, 0xA4, 0x42] := by decide

theorem magicCookie_high : magicCookie / 65536 = 0x2112 := by decide

theorem xorByte_xorByte (a k : Byte) : xorByte (xorByte a k) k = a := by
  apply Fin.ext
  simp [xorByte, Nat.xor_assoc]

theorem xorBytes_xorBytes : ∀ (a mask : List Byte), a.length ≤ mask.length →
    xorBytes (xorBytes a mask) mask = a := by
  intro a
  induction a with
  | nil => intro mask _; simp [xorBytes]
  | cons x xs ih =>
    intro mask h
    cases mask with
    | nil => simp at h
    | cons k ks =>
      have := ih ks (by simpa using h)
      simp only [xorBytes, List.zipWith_cons_cons, xorByte_xorByte] at this ⊢
      rw [this]

theorem xorBytes_length (a mask : List Byte) :
    (xorBytes a mask).length = min a.length mask.length := by
  simp [xorBytes]

theorem xor_port_lt (port : Nat) (h : port < 65536) : port ^^^ 0x2112 < 65536 :=
  Nat.xor_lt_two_pow (n := 16) h (by decide)

theorem xor_port_xor (port : Nat) : (port ^^^ 0x2112) ^^^ 0x2112 = port := by
  simp [Nat.xor_assoc]

/-! ## Codec: reading back one attribute -/

theorem parseAttributes_single (fuel : Nat) (t : Nat) (v : List Byte)
    (hv : v.length < 65536) :
    parseAttributes (fuel + 1)
        (be16 t ++ be16 v.length ++ v ++ List.replicate (padLen v.length) 0)
      = some [{ Typ := t % 65536, Length := v.length, Value := v }] := by
  have hlen : v.length % 65536 = v.length := Nat.mod_eq_of_lt hv
  have hdrop : List.drop (v.length + padLen v.length)
      (v ++ List.replicate (padLen v.length) 0) = [] := by
    apply List.drop_eq_nil_of_le
    simp
  cases fuel <;>
    simp [be16, parseAttributes, readBE16_be16, hlen, hdrop]

/-- Reading back a message built from `New()` by setting the transaction id,
adding one attribute and writing the header. -/
theorem ReadFrom_single_attribute (m0 : Message) (tid : transactionID) (t : Nat) (v : List Byte)
    (hfit : 4 + v.length + padLen v.length < 65536) :
    m0.ReadFrom (({ New with TransactionID := tid }.AddRaw t v).WriteHeader).Raw
      = (error.nil,
          { TransactionID := tid
            Raw := (({ New with TransactionID := tid }.AddRaw t v).WriteHeader).Raw
            Typ := { Method := 0, Class := 0 }
            Length := 4 + v.length + padLen v.length
            Attributes := [{ Typ := t % 65536, Length := v.length, Value := v }] }) := by
  have hv : v.length < 65536 := by omega
  have hdrop : List.drop messageHeaderSize ({ New with TransactionID := tid }.AddRaw t v).Raw
      = be16 t ++ be16 v.length ++ v ++ List.replicate (padLen v.length) 0 := by
    simp [Message.AddRaw, New, messageHeaderSize, List.drop_append_eq_append_drop]
  have hL : (be16 t ++ be16 v.length ++ v ++ List.replicate (padLen v.length) 0).length
      = 4 + v.length + padLen v.length := by
    simp [be16]; omega
  have hraw : (({ New with TransactionID := tid }.AddRaw t v).WriteHeader).Raw
      = byteOf 0 :: byteOf 0 :: byteOf ((4 + v.length + padLen v.length) / 256)
        :: byteOf (4 + v.length + padLen v.length) :: 0x21 :: 0x12 :: 0xA4 :: 0x42
        :: (tid.val ++ (be16 t ++ be16 v.length ++ v ++ List.replicate (padLen v.length) 0)) := by
    simp only [Message.WriteHeader, hdrop, hL, be32_magicCookie]
    simp [be16, Message.AddRaw, New, MessageType.Value]
  have hparse := parseAttributes_single (3 + v.length + padLen v.length) t v hv
  have hfuel : 3 + v.length + padLen v.length + 1 = 4 + v.length + padLen v.length := by omega
  rw [hfuel] at hparse
  have htake : List.take (4 + v.length + padLen v.length)
      (be16 t ++ be16 v.length ++ v ++ List.replicate (padLen v.length) 0)
      = be16 t ++ be16 v.length ++ v ++ List.replicate (padLen v.length) 0 := by
    apply List.take_of_length_le
    rw [hL]
  have hcookie : readBE32 0x21 0x12 0xA4 0x42 = magicCookie := by decide
  have htype : readBE16 (byteOf 0) (byteOf 0) = 0 := by decide
  have hdrop12 : List.drop 12
      (tid.val ++ (be16 t ++ be16 v.length ++ v ++ List.replicate (padLen v.length) 0))
      = be16 t ++ be16 v.length ++ v ++ List.replicate (padLen v.length) 0 :=
    List.drop_left' tid.property
  have htake12 : List.take 12
      (tid.val ++ (be16 t ++ be16 v.length ++ v ++ List.replicate (padLen v.length) 0))
      = tid.val :=
    List.take_left' tid.property
  have hrd : readBE16 (byteOf ((4 + v.length + padLen v.length) / 256))
      (byteOf (4 + v.length + padLen v.length)) = 4 + v.length + padLen v.length := by
    rw [readBE16_be16]; exact Nat.mod_eq_of_lt hfit
  have hrestlen : ¬ (tid.val ++
      (be16 t ++ be16 v.length ++ v ++ List.replicate (padLen v.length) 0)).length < 12 := by
    rw [List.length_append, tid.property]; omega
  have hfull : List.take (messageHeaderSize + (4 + v.length + padLen v.length))
      (byteOf 0 :: byteOf 0 :: byteOf ((4 + v.length + padLen v.length) / 256)
        :: byteOf (4 + v.length + padLen v.length) :: 0x21 :: 0x12 :: 0xA4 :: 0x42
        :: (tid.val ++ (be16 t ++ be16 v.length ++ v ++ List.replicate (padLen v.length) 0)))
      = byteOf 0 :: byteOf 0 :: byteOf ((4 + v.length + padLen v.length) / 256)
        :: byteOf (4 + v.length + padLen v.length) :: 0x21 :: 0x12 :: 0xA4 :: 0x42
        :: (tid.val ++ (be16 t ++ be16 v.length ++ v ++ List.replicate (padLen v.length) 0)) := by
    apply List.take_of_length_le
    simp only [List.length_cons, List.length_append, tid.property, hL, messageHeaderSize]
    omega
  have htid : toTransactionID tid.val = tid := by
    simp [toTransactionID, tid.property]
  rw [hraw]
  simp only [Message.ReadFrom]
  rw [if_neg hrestlen, if_neg (by rw [hcookie]; simp), if_neg (by rw [htype]; decide),
    hdrop12, hrd, hL, if_neg (lt_irrefl _), htake, hparse, htake12, htid, hfull, htype]
  rfl

/-! ## Codec: XOR-MAPPED-ADDRESS -/

theorem GetXORMappedAddress_v4 (m : Message) (n : Nat) (p1 p0 : Byte) (addr : List Byte)
    (hattrs : m.Attributes
      = [{ Typ := AttrXORMappedAddress, Length := n,
           Value := 0 :: byteOf FamilyIPv4 :: p1 :: p0 :: addr }])
    (haddr : addr.length = 4) :
    m.GetXORMappedAddress
      = (xorBytes addr (be32 magicCookie), readBE16 p1 p0 ^^^ 0x2112, error.nil) := by
  simp [Message.GetXORMappedAddress, Message.getAttrValue, hattrs, haddr, byteOf,
    FamilyIPv4, magicCookie_high]

theorem GetXORMappedAddress_v6 (m : Message) (n : Nat) (p1 p0 : Byte) (addr : List Byte)
    (hattrs : m.Attributes
      = [{ Typ := AttrXORMappedAddress, Length := n,
           Value := 0 :: byteOf FamilyIPv6 :: p1 :: p0 :: addr }])
    (haddr : addr.length = 16) :
    m.GetXORMappedAddress
      = (xorBytes addr (be32 magicCookie ++ m.TransactionID.val),
          readBE16 p1 p0 ^^^ 0x2112, error.nil) := by
  simp [Message.GetXORMappedAddress, Message.getAttrValue, hattrs, haddr, byteOf,
    FamilyIPv4, FamilyIPv6, magicCookie_high]

theorem readBE16_xor_port (port : Nat) (h : port < 65536) :
    readBE16 (byteOf ((port ^^^ 0x2112) / 256)) (byteOf (port ^^^ 0x2112)) ^^^ 0x2112
      = port := by
  rw [readBE16_be16, Nat.mod_eq_of_lt (xor_port_lt port h), xor_port_xor]

/-- C12: for every 4-byte or 16-byte address, every port below 65536 and every
transaction id: on a new message with that id, `AddXORMappedAddress(ip, port)`,
`WriteHeader`, `ReadFrom` into a new message and `GetXORMappedAddress` give no
error and the same address and port; so does `GetXORMappedAddress` on the
written message itself. -/
theorem XORMappedAddress_roundtrip (ip : List Byte) (port : Nat) (tid : transactionID)
    (hip : ip.length = 4 ∨ ip.length = 16) (hport : port < 65536) :
    (New.ReadFrom (({ New with TransactionID := tid }.AddXORMappedAddress ip port).WriteHeader).Raw).1
      = error.nil ∧
    (New.ReadFrom
        (({ New with TransactionID := tid }.AddXORMappedAddress ip port).WriteHeader).Raw).2.GetXORMappedAddress
      = (ip, port, error.nil) ∧
    (({ New with TransactionID := tid }.AddXORMappedAddress ip port).WriteHeader).GetXORMappedAddress
      = (ip, port, error.nil) := by
  rcases hip with h4 | h16
  · have hval : ([0, byteOf FamilyIPv4] ++ be16 (port ^^^ (magicCookie / 65536))
        ++ xorBytes ip (be32 magicCookie))
        = 0 :: byteOf FamilyIPv4 :: byteOf ((port ^^^ 0x2112) / 256)
          :: byteOf (port ^^^ 0x2112) :: xorBytes ip (be32 magicCookie) := by
      simp [be16, magicCookie_high]
    have hlen : (xorBytes ip (be32 magicCookie)).length = 4 := by
      simp [xorBytes_length, h4, be32]
    have hv : (0 :: byteOf FamilyIPv4 :: byteOf ((port ^^^ 0x2112) / 256)
          :: byteOf (port ^^^ 0x2112) :: xorBytes ip (be32 magicCookie)).length = 8 := by
      simp [hlen]
    have hadd : { New with TransactionID := tid }.AddXORMappedAddress ip port
        = { New with TransactionID := tid }.AddRaw AttrXORMappedAddress
            (0 :: byteOf FamilyIPv4 :: byteOf ((port ^^^ 0x2112) / 256)
              :: byteOf (port ^^^ 0x2112) :: xorBytes ip (be32 magicCookie)) := by
      rw [← hval]; simp [Message.AddXORMappedAddress, h4]
    have hback : xorBytes (xorBytes ip (be32 magicCookie)) (be32 magicCookie) = ip :=
      xorBytes_xorBytes ip _ (by simp [h4, be32])
    rw [hadd, ReadFrom_single_attribute New tid _ _ (by rw [hv]; decide)]
    refine ⟨rfl, ?_, ?_⟩
    · rw [GetXORMappedAddress_v4 _ 8 (byteOf ((port ^^^ 0x2112) / 256))
        (byteOf (port ^^^ 0x2112)) (xorBytes ip (be32 magicCookie))
        (by rw [hv]; rfl) hlen,
        hback, readBE16_xor_port port hport]
    · rw [GetXORMappedAddress_v4 _ 8 (byteOf ((port ^^^ 0x2112) / 256))
        (byteOf (port ^^^ 0x2112)) (xorBytes ip (be32 magicCookie))
        (by simp only [Message.WriteHeader, Message.AddRaw, New, hv]; rfl) hlen,
        hback, readBE16_xor_port port hport]
  · have hne : ip.length ≠ 4 := by omega
    have hval : ([0, byteOf FamilyIPv6] ++ be16 (port ^^^ (magicCookie / 65536))
        ++ xorBytes ip (be32 magicCookie ++ tid.val))
        = 0 :: byteOf FamilyIPv6 :: byteOf ((port ^^^ 0x2112) / 256)
          :: byteOf (port ^^^ 0x2112) :: xorBytes ip (be32 magicCookie ++ tid.val) := by
      simp [be16, magicCookie_high]
    have hlen : (xorBytes ip (be32 magicCookie ++ tid.val)).length = 16 := by
      simp [xorBytes_length, h16, be32, tid.property]
    have hv : (0 :: byteOf FamilyIPv6 :: byteOf ((port ^^^ 0x2112) / 256)
          :: byteOf (port ^^^ 0x2112) :: xorBytes ip (be32 magicCookie ++ tid.val)).length
        = 20 := by
      simp [hlen]
    have hadd : { New with TransactionID := tid }.AddXORMappedAddress ip port
        = { New with TransactionID := tid }.AddRaw AttrXORMappedAddress
            (0 :: byteOf FamilyIPv6 :: byteOf ((port ^^^ 0x2112) / 256)
              :: byteOf (port ^^^ 0x2112) :: xorBytes ip (be32 magicCookie ++ tid.val)) := by
      rw [← hval]; simp [Message.AddXORMappedAddress, hne]
    have hback : xorBytes (xorBytes ip (be32 magicCookie ++ tid.val))
        (be32 magicCookie ++ tid.val) = ip :=
      xorBytes_xorBytes ip _ (by simp [h16, be32, tid.property])
    rw [hadd, ReadFrom_single_attribute New tid _ _ (by rw [hv]; decide)]
    refine ⟨rfl, ?_, ?_⟩
    · rw [GetXORMappedAddress_v6 _ 20 (byteOf ((port ^^^ 0x2112) / 256))
        (byteOf (port ^^^ 0x2112)) (xorBytes ip (be32 magicCookie ++ tid.val))
        (by rw [hv]; rfl) hlen]
      simp only []
      rw [hback, readBE16_xor_port port hport]
    · rw [GetXORMappedAddress_v6 _ 20 (byteOf ((port ^^^ 0x2112) / 256))
        (byteOf (port ^^^ 0x2112)) (xorBytes ip (be32 magicCookie ++ tid.val))
        (by simp only [Message.WriteHeader, Message.AddRaw, New, hv]; rfl) hlen]
      simp only [Message.WriteHeader, Message.AddRaw]
      rw [hback, readBE16_xor_port port hport]

/-- C12 at the two test vectors: 213.141.156.236:21254 and
[fe80::dc2b:44ff:fe20:6009]:21254 with transaction id `jxhBARZwX+rsC6er`. -/
theorem XORMappedAddress_roundtrip_witness :
    ((New.ReadFrom
        (({ New with TransactionID := idTest }.AddXORMappedAddress ipV4Test 21254).WriteHeader).Raw).1
      = error.nil ∧
    (New.ReadFrom
        (({ New with TransactionID := idTest }.AddXORMappedAddress ipV4Test
          21254).WriteHeader).Raw).2.GetXORMappedAddress
      = (ipV4Test, 21254, error.nil) ∧
    (({ New with TransactionID := idTest }.AddXORMappedAddress ipV4Test
        21254).WriteHeader).GetXORMappedAddress
      = (ipV4Test, 21254, error.nil)) ∧
    ((New.ReadFrom
        (({ New with TransactionID := idTest }.AddXORMappedAddress ipV6Test 21254).WriteHeader).Raw).1
      = error.nil ∧
    (New.ReadFrom
        (({ New with TransactionID := idTest }.AddXORMappedAddress ipV6Test
          21254).WriteHeader).Raw).2.GetXORMappedAddress
      = (ipV6Test, 21254, error.nil) ∧
    (({ New with TransactionID := idTest }.AddXORMappedAddress ipV6Test
        21254).WriteHeader).GetXORMappedAddress
      = (ipV6Test, 21254, error.nil)) :=
  ⟨XORMappedAddress_roundtrip ipV4Test 21254 idTest (Or.inl rfl) (by decide),
    XORMappedAddress_roundtrip ipV6Test 21254 idTest (Or.inr rfl) (by decide)⟩

/-- C13: for every transaction id and every 8-byte XOR-MAPPED-ADDRESS value
`00 01 p1 p0 a3 a2 a1 a0`, `GetXORMappedAddress` returns no error, the port
`(p1 p0 big-endian) XOR 0x2112` and the address `a3 a2 a1 a0` XORed bytewise
with `21 12 A4 42`, whatever the transaction id; the value `00019cd5f49f38ae`
decodes to 213.141.156.236 port 48583. -/
theorem GetXORMappedAddress_decodes_v4 (tid : transactionID) (p1 p0 a3 a2 a1 a0 : Byte) :
    ({ New with TransactionID := tid }.AddRaw AttrXORMappedAddress
        [0x00, 0x01, p1, p0, a3, a2, a1, a0]).GetXORMappedAddress
      = ([xorByte a3 0x21, xorByte a2 0x12, xorByte a1 0xA4, xorByte a0 0x42],
          readBE16 p1 p0 ^^^ 0x2112, error.nil) ∧
    ({ New with TransactionID := idTest }.AddRaw AttrXORMappedAddress
        [0x00, 0x01, 0x9c, 0xd5, 0xf4, 0x9f, 0x38, 0xae]).GetXORMappedAddress
      = ([213, 141, 156, 236], 48583, error.nil) := by
  constructor
  · rw [GetXORMappedAddress_v4 _ (8 % 65536) p1 p0 [a3, a2, a1, a0]
      (by simp [Message.AddRaw, New, AttrXORMappedAddress, byteOf, FamilyIPv4]) rfl]
    simp [xorBytes, be32_magicCookie]
  · decide

/-! ## Codec: ERROR-CODE -/

theorem padLen_le (n : Nat) : padLen n ≤ 3 := by
  unfold padLen; omega

/-- C14, within the 16-bit length fields: for every error code with class
`code / 100` at most 6 and every reason phrase of at most 65524 bytes,
`AddErrorCode(code, reason)`, `WriteHeader`, `ReadFrom` into a new message and
`GetErrorCode` give no error, the same code and the same reason bytes. -/
theorem ErrorCode_roundtrip (code : Nat) (reason : List Byte) (tid : transactionID)
    (hclass : code / 100 ≤ 6) (hlen : reason.length ≤ 65524) :
    (New.ReadFrom
        (({ New with TransactionID := tid }.AddErrorCode code reason).WriteHeader).Raw).1
      = error.nil ∧
    (New.ReadFrom
        (({ New with TransactionID := tid }.AddErrorCode code reason).WriteHeader).Raw).2.GetErrorCode
      = (code, reason, error.nil) := by
  have hv : ([0, 0, byteOf (code / 100 % 8), byteOf (code % 100)] ++ reason).length
      = 4 + reason.length := by
    simp; omega
  have hpad := padLen_le (4 + reason.length)
  have hmod : 4 + reason.length + padLen (4 + reason.length)
      = 4 * ((4 + reason.length + padLen (4 + reason.length)) / 4) := by
    unfold padLen; omega
  have hfit : 4 + ([0, 0, byteOf (code / 100 % 8), byteOf (code % 100)] ++ reason).length
      + padLen ([0, 0, byteOf (code / 100 % 8), byteOf (code % 100)] ++ reason).length
      < 65536 := by
    rw [hv]; omega
  simp only [Message.AddErrorCode]
  rw [ReadFrom_single_attribute New tid _ _ hfit]
  refine ⟨rfl, ?_⟩
  have hcode : code / 100 % 8 % 256 % 8 * 100 + code % 100 % 256 = code := by omega
  simp [Message.GetErrorCode, Message.getAttrValue, AttrErrorCode, byteOf, hcode]

/-- C14 at code 404 and reason "Not found". -/
theorem ErrorCode_roundtrip_witness :
    (New.ReadFrom
        (({ New with TransactionID := idTest }.AddErrorCode 404 notFound).WriteHeader).Raw).1
      = error.nil ∧
    (New.ReadFrom
        (({ New with TransactionID := idTest }.AddErrorCode 404
          notFound).WriteHeader).Raw).2.GetErrorCode
      = (404, notFound, error.nil) :=
  ErrorCode_roundtrip 404 notFound idTest (by decide) (by decide)

theorem readBE16_lt (a b : Byte) : readBE16 a b < 65536 := by
  unfold readBE16
  have ha := a.isLt
  have hb := b.isLt
  omega

/-- Every attribute the walk yields has a value shorter than 65536 bytes: its
length is read from two bytes. -/
theorem parseAttributes_value_length :
    ∀ (fuel : Nat) (buf : List Byte) (attrs : List RawAttribute),
      parseAttributes fuel buf = some attrs → ∀ a ∈ attrs, a.Value.length < 65536 := by
  intro fuel
  induction fuel with
  | zero =>
    intro buf attrs h a ha
    cases buf with
    | nil => simp [parseAttributes] at h; subst h; simp at ha
    | cons x xs => simp [parseAttributes] at h
  | succ fuel ih =>
    intro buf attrs h a ha
    match buf, h with
    | [], h => simp [parseAttributes] at h; subst h; simp at ha
    | [_], h => simp [parseAttributes] at h
    | [_, _], h => simp [parseAttributes] at h
    | [_, _, _], h => simp [parseAttributes] at h
    | a0 :: a1 :: l0 :: l1 :: rest, h =>
      simp only [parseAttributes] at h
      split at h
      · cases h
      · split at h
        · cases h
        · next attrs1 hrec =>
          cases h
          rcases List.mem_cons.mp ha with h1 | h1
          · subst h1
            simp only [List.length_take]
            exact lt_of_le_of_lt (min_le_left _ _) (readBE16_lt l0 l1)
          · exact ih _ _ hrec a h1

theorem ReadFrom_value_length (src : List Byte) :
    ∀ a ∈ (New.ReadFrom src).2.Attributes, a.Value.length < 65536 := by
  intro a ha
  unfold Message.ReadFrom at ha
  split at ha
  · next t0 t1 l0 l1 c0 c1 c2 c3 rest =>
    split at ha
    · simp [New] at ha
    · split at ha
      · simp [New] at ha
      · split at ha
        · simp [New] at ha
        · split at ha
          · simp [New] at ha
          · split at ha
            · simp [New] at ha
            · next attrs hp => exact parseAttributes_value_length _ _ attrs hp a ha
  · simp [New] at ha

theorem GetErrorCode_reason_length (m : Message)
    (h : ∀ a ∈ m.Attributes, a.Value.length < 65536) :
    m.GetErrorCode.2.1.length < 65532 := by
  unfold Message.GetErrorCode
  cases hg : m.getAttrValue AttrErrorCode with
  | none => simp
  | some v =>
    have hv : v.length < 65536 := by
      unfold Message.getAttrValue at hg
      cases hf : m.Attributes.find? (fun a => decide (a.Typ = AttrErrorCode)) with
      | none => rw [hf] at hg; simp at hg
      | some a =>
        rw [hf] at hg
        simp only [Option.map_some', Option.some.injEq] at hg
        rw [← hg]
        exact h a (List.mem_of_find?_eq_some hf)
    match v, hv with
    | [], _ => simp
    | [_], _ => simp
    | [_, _], _ => simp
    | [_, _, _], _ => simp
    | _ :: _ :: _ :: _ :: reason, hv =>
      simp only [List.length_cons] at hv
      show reason.length < 65532
      omega

/-- C14 fails as stated: a reason phrase of 65532 bytes does not come back; the
reason `GetErrorCode` returns after the round trip has fewer bytes. -/
theorem long_reason_not_read_back :
    (List.replicate 65532 (0 : Byte)).length = 65532 ∧
    404 / 100 = 4 ∧ 404 % 100 = 4 ∧
    (New.ReadFrom
        (({ New with TransactionID := idTest }.AddErrorCode 404
          (List.replicate 65532 0)).WriteHeader).Raw).2.GetErrorCode.2.1.length < 65532 :=
  ⟨List.length_replicate _ _, by decide, by decide,
    GetErrorCode_reason_length _ (ReadFrom_value_length _)⟩

/-! ## `Close` and the transactions still pending -/

theorem handlerCallsFor_append (id : transactionID) (a b : Trace) :
    handlerCallsFor id (a ++ b) = handlerCallsFor id a ++ handlerCallsFor id b := by
  simp [handlerCallsFor, handlerCalls_append]

theorem keyedById_setMap_erase (s : State) (m : TMap) (id : transactionID)
    (hmap : s.client.t = some m) (hk : keyedById s) :
    keyedById (s.setMap (m.erase id)) := by
  intro m1 hm1 k t hkt
  simp only [State.setMap, Option.some.injEq] at hm1
  subst hm1
  simp only [TMap.erase] at hkt
  split at hkt
  · cases hkt
  · exact hk m hmap k t hkt

/-- One event on a closed client: the callback returns, makes no agent call and
no write, and calls a handler only for the id of the event, once when that id
is registered. -/
theorem closed_callback_effect (env : Env) (fuel : Nat) (x : Event) (s : State)
    (hclosed : s.client.closed = true) (hh : handlersSet s) (hk : keyedById s) :
    ∃ s1 : State,
      handleAgentCallback env (fuel + 1) x s = Outcome.ret () s1 ∧
      s1.client.closed = true ∧ handlersSet s1 ∧ keyedById s1 ∧
      agentStarts s1.trace = agentStarts s.trace ∧
      agentStops s1.trace = agentStops s.trace ∧
      writesOf s1.trace = writesOf s.trace ∧
      (∀ id, stored id s = none →
        stored id s1 = none ∧ handlerCallsFor id s1.trace = handlerCallsFor id s.trace) ∧
      (∀ id, id ≠ x.TransactionID → id ≠ zeroID →
        stored id s1 = stored id s ∧
        handlerCallsFor id s1.trace = handlerCallsFor id s.trace) ∧
      (∀ t f, stored x.TransactionID s = some t → t.h = some f →
        x.Error = error.ErrAgentClosed →
        stored x.TransactionID s1 = none ∧
        handlerCallsFor x.TransactionID s1.trace
          = handlerCallsFor x.TransactionID s.trace ++ [(f, x)]) := by
  cases hm : s.client.t with
  | none =>
    refine ⟨s, by simp [handleAgentCallback, hm], hclosed, hh, hk, rfl, rfl, rfl, ?_, ?_, ?_⟩
    · intro id h; exact ⟨h, rfl⟩
    · intro id _ _; exact ⟨rfl, rfl⟩
    · intro t f h; simp [stored, hm] at h
  | some m =>
    cases hl : m x.TransactionID with
    | none =>
      refine ⟨_, handleAgentCallback_not_found env fuel x s m hm hl, hclosed,
        handlersSet_setMap_erase s m _ hm hh, keyedById_setMap_erase s m _ hm hk,
        rfl, rfl, rfl, ?_, ?_, ?_⟩
      · intro id h
        simp only [stored, hm] at h
        refine ⟨?_, rfl⟩
        simp [stored, State.setMap, TMap.erase, h]
      · intro id _ hz
        refine ⟨?_, rfl⟩
        simp [stored, State.setMap, TMap.erase, hm, hz]
      · intro t f h; simp [stored, hm, hl] at h
    | some t =>
      obtain ⟨f, hf⟩ : ∃ f, t.h = some f := Option.ne_none_iff_exists'.mp (hh m hm _ t hl)
      have hid : t.id = x.TransactionID := hk m hm _ t hl
      have hrun : ∃ x1 : Event, x1.TransactionID = x.TransactionID ∧
          (x.Error = error.ErrAgentClosed → x1 = x) ∧
          handleAgentCallback env (fuel + 1) x s
            = Outcome.ret () ((s.setMap (m.erase t.id)).log (Action.handle f x1)) := by
        by_cases hterm : s.client.maxAttempts < t.attempt ∨ x.Error = error.nil
        · refine ⟨x, rfl, fun _ => rfl, ?_⟩
          rw [handleAgentCallback_terminal env fuel x s m t hm hl hterm, hf]; rfl
        · refine ⟨{ x with Error := error.ErrAgentClosed }, rfl, ?_, ?_⟩
          · intro he; cases x; simp_all
          · rw [handleAgentCallback_retry_closed env fuel x s m t hm hl
              (fun h => hterm (Or.inl h)) (fun h => hterm (Or.inr h)) hclosed, hf]
            rfl
      obtain ⟨x1, hx1, hx1e, hrun⟩ := hrun
      refine ⟨_, hrun, hclosed, handlersSet_setMap_erase s m _ hm hh,
        keyedById_setMap_erase s m _ hm hk, ?_, ?_, ?_, ?_, ?_, ?_⟩
      · simp [State.log, State.setMap, agentStarts_append, agentStarts]
      · simp [State.log, State.setMap, agentStops_append, agentStops]
      · simp [State.log, State.setMap, writesOf_append, writesOf]
      · intro id h
        simp only [stored, hm] at h
        have hne : x.TransactionID ≠ id := by
          intro he; rw [he] at hl; rw [hl] at h; cases h
        refine ⟨?_, ?_⟩
        · simp [stored, State.log, State.setMap, TMap.erase, h]
        · simp [State.log, State.setMap, handlerCallsFor, handlerCalls_append, handlerCalls,
            hx1, hne]
      · intro id hne _
        refine ⟨?_, ?_⟩
        · simp [stored, State.log, State.setMap, TMap.erase, hm, hid, hne]
        · simp [State.log, State.setMap, handlerCallsFor, handlerCalls_append, handlerCalls,
            hx1, Ne.symm hne]
      · intro t1 f1 h1 h2 he
        simp only [stored, hm, hl, Option.some.injEq] at h1
        subst h1
        rw [hf] at h2
        cases h2
        refine ⟨?_, ?_⟩
        · simp [stored, State.log, State.setMap, TMap.erase, hid]
        · rw [hx1e he]
          simp [State.log, State.setMap, handlerCallsFor, handlerCalls_append, handlerCalls]

theorem deliver_append (cb : Event → State → Outcome Unit) :
    ∀ (a b : List Event) (s s1 : State), deliver cb a s = Outcome.ret () s1 →
      deliver cb (a ++ b) s = deliver cb b s1 := by
  intro a
  induction a with
  | nil => intro b s s1 h; simp only [deliver] at h; cases h; rfl
  | cons x xs ih =>
    intro b s s1 h
    simp only [deliver, List.cons_append] at h ⊢
    cases hc : cb x s with
    | ret u s2 => rw [hc] at h; exact ih b s2 s1 h
    | panic s2 => rw [hc] at h; cases h
    | outOfFuel => rw [hc] at h; cases h

/-- Events for other ids, delivered on a closed client, leave a registered
transaction and the calls made for it as they are. -/
theorem closed_deliver_before (env : Env) (fuel : Nat) (id : transactionID)
    (t : clientTransaction) :
    ∀ (pre : List Event) (s : State), s.client.closed = true → handlersSet s → keyedById s →
      stored id s = some t → (∀ x ∈ pre, x.TransactionID ≠ id ∧ id ≠ zeroID) →
      ∃ s1 : State,
        deliver (handleAgentCallback env (fuel + 1)) pre s = Outcome.ret () s1 ∧
        s1.client.closed = true ∧ handlersSet s1 ∧ keyedById s1 ∧
        stored id s1 = some t ∧
        handlerCallsFor id s1.trace = handlerCallsFor id s.trace ∧
        agentStarts s1.trace = agentStarts s.trace ∧
        agentStops s1.trace = agentStops s.trace ∧
        writesOf s1.trace = writesOf s.trace := by
  intro pre
  induction pre with
  | nil => intro s hc hh hk hst _; exact ⟨s, rfl, hc, hh, hk, hst, rfl, rfl, rfl, rfl⟩
  | cons x xs ih =>
    intro s hc hh hk hst hpre
    obtain ⟨s1, h1, h2, h3, h4, h5, h6, h7, _, h9, _⟩ :=
      closed_callback_effect env fuel x s hc hh hk
    obtain ⟨hne, hz⟩ := hpre x (List.mem_cons_self _ _)
    obtain ⟨k1, k2⟩ := h9 id (Ne.symm hne) hz
    obtain ⟨s2, g1, g2, g3, g4, g5, g6, g7, g8, g9⟩ := ih s1 h2 h3 h4 (k1.trans hst)
      (fun y hy => hpre y (List.mem_cons_of_mem _ hy))
    refine ⟨s2, ?_, g2, g3, g4, g5, g6.trans k2, g7.trans h5, g8.trans h6, g9.trans h7⟩
    simp only [deliver, h1]
    exact g1

/-- Events delivered on a closed client after a transaction is gone make no call
for its id and do not bring it back. -/
theorem closed_deliver_after (env : Env) (fuel : Nat) (id : transactionID) :
    ∀ (post : List Event) (s : State), s.client.closed = true → handlersSet s → keyedById s →
      stored id s = none →
      ∃ s1 : State,
        deliver (handleAgentCallback env (fuel + 1)) post s = Outcome.ret () s1 ∧
        s1.client.closed = true ∧
        stored id s1 = none ∧
        handlerCallsFor id s1.trace = handlerCallsFor id s.trace ∧
        agentStarts s1.trace = agentStarts s.trace ∧
        agentStops s1.trace = agentStops s.trace ∧
        writesOf s1.trace = writesOf s.trace := by
  intro post
  induction post with
  | nil => intro s hc _ _ hst; exact ⟨s, rfl, hc, hst, rfl, rfl, rfl, rfl⟩
  | cons x xs ih =>
    intro s hc hh hk hst
    obtain ⟨s1, h1, h2, h3, h4, h5, h6, h7, h8, _, _⟩ :=
      closed_callback_effect env fuel x s hc hh hk
    obtain ⟨k1, k2⟩ := h8 id hst
    obtain ⟨s2, g1, g2, g3, g4, g5, g6, g7⟩ := ih s1 h2 h3 h4 k1
    refine ⟨s2, ?_, g2, g3, g4.trans k2, g5.trans h5, g6.trans h6, g7.trans h7⟩
    simp only [deliver, h1]
    exact g1

/-- C5: for a transaction registered with handler `h` and still pending when
`Close` runs on an initialized, open client: when the agent's `Close` delivers
an `ErrAgentClosed` event for it (after events for other ids and before any
others), `Close` returns and `h` has been called for that transaction exactly
once, with the event whose error is `ErrAgentClosed`; the transaction is not in
the map afterwards, and `Close` has made no `Agent.Start` call, no `Agent.Stop`
call and no write. -/
theorem Close_hands_ErrAgentClosed (env : Env) (fuel : Nat) (s : State)
    (id : transactionID) (t : clientTransaction) (f : Handler)
    (pre post : List Event) (aerr : error)
    (hinit : checkInit s.client = error.nil) (hopen : s.client.closed = false)
    (hh : handlersSet s) (hk : keyedById s)
    (hst : stored id s = some t) (hf : t.h = some f)
    (hagent : env.agentClose s.trace = (pre ++ closedEvent id :: post, aerr))
    (hpre : ∀ x ∈ pre, x.TransactionID ≠ id ∧ id ≠ zeroID) :
    ∃ (s1 : State) (r : error),
      Close env (fuel + 1) s = Outcome.ret r s1 ∧
      s1.client.closed = true ∧
      handlerCallsFor id s1.trace = handlerCallsFor id s.trace ++ [(f, closedEvent id)] ∧
      (closedEvent id).Error = error.ErrAgentClosed ∧
      stored id s1 = none ∧ pending id s1 = false ∧
      agentStarts s1.trace = agentStarts s.trace ∧
      agentStops s1.trace = agentStops s.trace ∧
      writesOf s1.trace = writesOf s.trace := by
  have hs0 : ∀ (st : State), st = State.log { s with client := { s.client with closed := true } }
      (Action.agentClose aerr) →
      st.client.closed = true ∧ handlersSet st ∧ keyedById st ∧ stored id st = some t ∧
      handlerCallsFor id st.trace = handlerCallsFor id s.trace ∧
      agentStarts st.trace = agentStarts s.trace ∧ agentStops st.trace = agentStops s.trace ∧
      writesOf st.trace = writesOf s.trace := by
    intro st hst0
    subst hst0
    refine ⟨rfl, fun m hm k t1 hk1 => hh m hm k t1 hk1, fun m hm k t1 hk1 => hk m hm k t1 hk1,
      hst, ?_, ?_, ?_, ?_⟩
    · simp [State.log, handlerCallsFor, handlerCalls_append, handlerCalls]
    · simp [State.log, agentStarts_append, agentStarts]
    · simp [State.log, agentStops_append, agentStops]
    · simp [State.log, writesOf_append, writesOf]
  obtain ⟨a1, a2, a3, a4, a5, a6, a7, a8⟩ := hs0 _ rfl
  obtain ⟨s1, b1, b2, b3, b4, b5, b6, b7, b8, b9⟩ :=
    closed_deliver_before env fuel id t pre _ a1 a2 a3 a4 hpre
  obtain ⟨s2, c1, c2, c3, c4, c5, c6, c7, _, _, c10⟩ :=
    closed_callback_effect env fuel (closedEvent id) s1 b2 b3 b4
  obtain ⟨d1, d2⟩ := c10 t f b5 hf rfl
  have d2 : handlerCallsFor id s2.trace
      = handlerCallsFor id s1.trace ++ [(f, closedEvent id)] := d2
  obtain ⟨s3, e1, e2, e3, e4, e5, e6, e7⟩ := closed_deliver_after env fuel id post s2 c2 c3 c4 d1
  have hdel : deliver (handleAgentCallback env (fuel + 1)) (pre ++ closedEvent id :: post)
      (State.log { s with client := { s.client with closed := true } }
        (Action.agentClose aerr)) = Outcome.ret () s3 := by
    rw [deliver_append _ pre _ _ s1 b1]
    simp only [deliver, c1]
    exact e1
  have hC : Close env (fuel + 1) s
      = (if aerr = error.nil ∧ env.connClose s3.trace = error.nil then
          Outcome.ret error.nil (s3.log (Action.connClose (env.connClose s3.trace)))
        else
          Outcome.ret (error.CloseErr aerr (env.connClose s3.trace))
            (s3.log (Action.connClose (env.connClose s3.trace)))) := by
    unfold Close
    rw [if_neg (by simp [hinit]), if_neg (by simp [hopen])]
    simp only [hagent]
    rw [hdel]
  have hfin : ∃ r, Close env (fuel + 1) s
      = Outcome.ret r (s3.log (Action.connClose (env.connClose s3.trace))) := by
    rw [hC]
    by_cases hb : aerr = error.nil ∧ env.connClose s3.trace = error.nil
    · exact ⟨_, by rw [if_pos hb]⟩
    · exact ⟨_, by rw [if_neg hb]⟩
  obtain ⟨r, hr⟩ := hfin
  refine ⟨_, r, hr, e2, ?_, rfl, ?_, ?_, ?_, ?_, ?_⟩
  · simp only [State.log, handlerCallsFor_append]
    rw [e4, d2, b6, a5]
    simp [handlerCallsFor, handlerCalls]
  · simpa [stored, State.log] using e3
  · have he3 := e3
    simp only [stored] at he3
    simp only [pending, State.log]
    cases hm : s3.client.t with
    | none => rfl
    | some m =>
      rw [hm] at he3
      simp only at he3
      simp [he3]
  · simp only [State.log, agentStarts_append]
    rw [e5, c5, b7, a6]; simp [agentStarts]
  · simp only [State.log, agentStops_append]
    rw [e6, c6, b8, a7]; simp [agentStops]
  · simp only [State.log, writesOf_append]
    rw [e7, c7, b9, a8]; simp [writesOf]

/-- C5 at a concrete input: `txA` pending, an agent whose `Close` reports
`ErrAgentClosed` for an unknown id, then for `txA`, then for `txA` again. -/
theorem Close_hands_ErrAgentClosed_witness :
    ∃ (s1 : State) (r : error),
      Close talkativeCloseEnv (0 + 1) (pendingState 3 1 false) = Outcome.ret r s1 ∧
      s1.client.closed = true ∧
      handlerCallsFor idA s1.trace
        = handlerCallsFor idA (pendingState 3 1 false).trace ++ [(7, closedEvent idA)] ∧
      (closedEvent idA).Error = error.ErrAgentClosed ∧
      stored idA s1 = none ∧ pending idA s1 = false ∧
      agentStarts s1.trace = agentStarts (pendingState 3 1 false).trace ∧
      agentStops s1.trace = agentStops (pendingState 3 1 false).trace ∧
      writesOf s1.trace = writesOf (pendingState 3 1 false).trace :=
  Close_hands_ErrAgentClosed talkativeCloseEnv 0 (pendingState 3 1 false) idA (txA 1) 7
    [closedEvent idTest] [closedEvent idA] (error.other 2) (by decide) rfl
    (by
      intro m hm k t hk
      simp only [pendingState, Option.some.injEq] at hm
      subst hm
      simp only [TMap.insert] at hk
      split at hk
      · cases hk; simp [txA]
      · cases hk)
    (by
      intro m hm k t hk
      simp only [pendingState, Option.some.injEq] at hm
      subst hm
      simp only [TMap.insert] at hk
      split at hk
      · next h => cases hk; exact h.symm
      · cases hk)
    (by decide) rfl rfl
    (by
      intro x hx
      simp only [List.mem_singleton] at hx
      subst hx
      exact ⟨by decide, by decide⟩)

end Stun
